import Mathlib

/-!
Verification development for the probestyx metrics aggregation engine.

The Go sources are shallowly embedded:
* Go strings are modelled as `List Char`; the handful of `strings.*`
  functions used by the code (`Split` on a one-character separator,
  `Contains` of a one-character needle, `TrimSpace`, `Fields`,
  `ReplaceAll`, `HasPrefix`, `Index`) are given executable models below.
* `float64` values are modelled as exact rationals `ℚ`; IEEE special
  values produced by division are captured by `GoFloat`
  (finite / +Inf / -Inf / NaN).  `strconv.ParseFloat` is modelled on its
  full finite grammar (optional sign, decimal mantissa with optional
  fraction and decimal exponent, hexadecimal mantissa with mandatory
  binary exponent) together with its range errors (overflow past the
  largest finite `float64`, underflow below half the smallest
  subnormal); the `inf`/`infinity`/`nan` special forms and underscore
  digit separators denote values or spellings outside this `ℚ`-valued
  model and are excluded by explicit hypotheses where they matter.
* `uint64` counters are modelled as `ℕ`, with the wrapping subtraction
  `totalRead - prevDiskRead` made explicit as arithmetic modulo `2^64`.
* Go maps are modelled as association lists; only key/value membership
  is ever relied upon, never iteration order.
* The mutex-guarded collector (`CollectSystem` in
  internal/metrics/system.go) is modelled as a state-transition
  function: the fast path only reads the cache, and the slow path runs
  under `collectionMutex`, so every concurrent execution is equivalent
  to some serialization of the calls, which is what the model captures.
-/

namespace Probestyx

/-! ## Go string primitives (strings.* as used by the code) -/

/-- Characters accepted by `unicode.IsSpace` in the ASCII range (the only
ones the embedded algorithms can meet in the claims). -/
def isGoSpace (c : Char) : Bool :=
  c == ' ' || c == '\t' || c == '\n' || c == '\x0b' || c == '\x0c' || c == '\r'

/-- `strings.TrimSpace`. -/
def goTrimSpace (s : List Char) : List Char :=
  ((s.dropWhile isGoSpace).reverse.dropWhile isGoSpace).reverse

/-- `strings.Split` with a one-character separator. -/
def splitOnChar (sep : Char) : List Char → List (List Char)
  | [] => [[]]
  | c :: rest =>
    match splitOnChar sep rest with
    | [] => [[]]
    | p :: ps => if c = sep then [] :: p :: ps else (c :: p) :: ps

/-- `strings.Contains` with a one-character needle. -/
def containsChar (c : Char) (s : List Char) : Bool :=
  s.any (fun x => x == c)

/-- Fuel-driven worker for `replaceAll`; one unit of fuel is spent per
consumed character, so `s.length` fuel always suffices. -/
def replaceAllAux (pat rep : List Char) : ℕ → List Char → List Char
  | 0, s => s
  | fuel + 1, s =>
    match s with
    | [] => []
    | c :: rest =>
      if pat ≠ [] ∧ pat.isPrefixOf (c :: rest) then
        rep ++ replaceAllAux pat rep fuel (rest.drop (pat.length - 1))
      else
        c :: replaceAllAux pat rep fuel rest

/-- `strings.ReplaceAll` (leftmost, non-overlapping occurrences). -/
def replaceAll (pat rep s : List Char) : List Char :=
  replaceAllAux pat rep s.length s

/-- Decimal digit characters for number formatting. -/
def digitChar (n : ℕ) : Char :=
  match n with
  | 0 => '0' | 1 => '1' | 2 => '2' | 3 => '3' | 4 => '4'
  | 5 => '5' | 6 => '6' | 7 => '7' | 8 => '8' | _ => '9'

/-- Fuel-driven digit emitter for `natDigits`. -/
def natDigitsAux : ℕ → ℕ → List Char
  | 0, _ => []
  | fuel + 1, n =>
    if n = 0 then [] else natDigitsAux fuel (n / 10) ++ [digitChar (n % 10)]

/-- Decimal representation of a natural number. -/
def natDigits (n : ℕ) : List Char :=
  if n = 0 then ['0'] else natDigitsAux (n + 1) n

/-- Left-pads a digit string with zeros to the requested width. -/
def padLeft (w : ℕ) (l : List Char) : List Char :=
  List.replicate (w - l.length) '0' ++ l

/-- Round-half-up of a rational to an integer (used to model decimal
formatting of an exactly representable value). -/
def rhu (q : ℚ) : ℤ := ⌊q + 1 / 2⌋

/-- `fmt.Sprintf("%f", v)` for nonnegative `v`: decimal with six
fractional digits. -/
def formatFNonneg (v : ℚ) : List Char :=
  let scaled := (rhu (v * 1000000)).toNat
  natDigits (scaled / 1000000) ++ '.' :: padLeft 6 (natDigits (scaled % 1000000))

/-- `fmt.Sprintf("%f", v)` (as used by `utils.Calculate` to substitute the
numeric value into the expression string). -/
def formatF (v : ℚ) : List Char :=
  if v < 0 then '-' :: formatFNonneg (-v) else formatFNonneg v

/-- Digit-string to natural number. -/
def digitsToNatAux : List Char → ℕ → ℕ
  | [], acc => acc
  | c :: rest, acc => digitsToNatAux rest (acc * 10 + (c.toNat - 48))

/-- Hexadecimal digit test for the hex-float mantissa. -/
def isHexDigitGo (c : Char) : Bool :=
  c.isDigit || ('a' ≤ c && c ≤ 'f') || ('A' ≤ c && c ≤ 'F')

/-- Value of a hexadecimal digit. -/
def hexDigitVal (c : Char) : ℕ :=
  if c.isDigit then c.toNat - 48
  else if 'a' ≤ c then c.toNat - 87
  else c.toNat - 55

/-- Hex-digit-string to natural number. -/
def hexToNatAux : List Char → ℕ → ℕ
  | [], acc => acc
  | c :: rest, acc => hexToNatAux rest (acc * 16 + hexDigitVal c)

/-- An optionally signed, nonempty digit run (an exponent body). -/
def parseSignedDigits : List Char → Option ℤ
  | '+' :: ds =>
    if ds ≠ [] ∧ ds.all Char.isDigit then some (digitsToNatAux ds 0) else none
  | '-' :: ds =>
    if ds ≠ [] ∧ ds.all Char.isDigit then
      some (-(digitsToNatAux ds 0 : ℤ))
    else none
  | ds =>
    if ds ≠ [] ∧ ds.all Char.isDigit then some (digitsToNatAux ds 0) else none

/-- The optional decimal exponent suffix `[e|E][sign]digits`. -/
def parseDecExp : List Char → Option ℤ
  | [] => some 0
  | c :: rest => if c = 'e' ∨ c = 'E' then parseSignedDigits rest else none

/-- The mandatory hex-float exponent suffix `[p|P][sign]digits`. -/
def parseHexExp : List Char → Option ℤ
  | [] => none
  | c :: rest => if c = 'p' ∨ c = 'P' then parseSignedDigits rest else none

/-- Unsigned decimal mantissa with optional fraction and optional
decimal exponent: `digits[.digits][e|E[sign]digits]`, at least one
mantissa digit, full consumption. -/
def parseDecimalAbs (s : List Char) : Option ℚ :=
  let ip := s.takeWhile Char.isDigit
  let rest1 := s.dropWhile Char.isDigit
  match rest1 with
  | '.' :: rest2 =>
    let fp := rest2.takeWhile Char.isDigit
    let rest3 := rest2.dropWhile Char.isDigit
    if ip = [] ∧ fp = [] then none
    else
      match parseDecExp rest3 with
      | some e =>
        some (((digitsToNatAux ip 0 : ℚ) +
          (digitsToNatAux fp 0 : ℚ) / 10 ^ fp.length) * 10 ^ e)
      | none => none
  | _ =>
    if ip = [] then none
    else
      match parseDecExp rest1 with
      | some e => some ((digitsToNatAux ip 0 : ℚ) * 10 ^ e)
      | none => none

/-- Unsigned hex-float mantissa (after the `0x` prefix) with its
mandatory binary exponent: `hexdigits[.hexdigits]p|P[sign]digits`. -/
def parseHexAbs (s : List Char) : Option ℚ :=
  let ip := s.takeWhile isHexDigitGo
  let rest1 := s.dropWhile isHexDigitGo
  match rest1 with
  | '.' :: rest2 =>
    let fp := rest2.takeWhile isHexDigitGo
    let rest3 := rest2.dropWhile isHexDigitGo
    if ip = [] ∧ fp = [] then none
    else
      match parseHexExp rest3 with
      | some e =>
        some (((hexToNatAux ip 0 : ℚ) +
          (hexToNatAux fp 0 : ℚ) / 16 ^ fp.length) * 2 ^ e)
      | none => none
  | _ =>
    if ip = [] then none
    else
      match parseHexExp rest1 with
      | some e => some ((hexToNatAux ip 0 : ℚ) * 2 ^ e)
      | none => none

/-- Unsigned finite float syntax: a hex float after a `0x`/`0X` prefix,
otherwise a decimal. -/
def parseGoFloatAbs (s : List Char) : Option ℚ :=
  match s with
  | '0' :: 'x' :: rest => parseHexAbs rest
  | '0' :: 'X' :: rest => parseHexAbs rest
  | _ => parseDecimalAbs s

/-- A finite value of at least this magnitude rounds to ±Inf, which
`strconv.ParseFloat` reports as a range error (the callers check
`err == nil` and treat it as a parse failure). -/
def float64OverflowBound : ℚ := 2 ^ 1024 - 2 ^ 970

/-- A nonzero value of at most this magnitude rounds to zero with a
range error. -/
def float64UnderflowBound : ℚ := 1 / 2 ^ 1075

/-- `strconv.ParseFloat` (64-bit) on the finite-value fragment: optional
sign, decimal mantissa with optional fraction and `e`-exponent, or hex
mantissa with mandatory `p`-exponent, rejecting values outside the
float64 range exactly as the range error makes the Go callers do.  The
`inf`/`infinity`/`nan` special forms (whose values `ℚ` cannot carry, see
`isSpecialFloatToken`) and underscore digit separators are not modelled;
theorems over parse failures carry hypotheses excluding them. -/
def parseGoFloat (s : List Char) : Option ℚ :=
  let signed : Option ℚ :=
    match s with
    | '-' :: rest => (parseGoFloatAbs rest).map (fun q => -q)
    | '+' :: rest => parseGoFloatAbs rest
    | _ => parseGoFloatAbs s
  match signed with
  | some q =>
    if q ≠ 0 ∧ (|q| ≤ float64UnderflowBound ∨ float64OverflowBound ≤ |q|) then
      none
    else some q
  | none => none

/-! ## internal/utils/utils.go -/

/-- Go `int(x)` conversion from `float64`: truncation toward zero. -/
def intTrunc (q : ℚ) : ℤ :=
  if 0 ≤ q then ⌊q⌋ else -⌊-q⌋

/-- The `ratio` computed by the loop in `utils.Round` (`10^precision`). -/
def goRatio (precision : ℕ) : ℚ := 10 ^ precision

/-- `utils.Round`: `float64(int(val*ratio+0.5)) / ratio`, with the
`int(...)` conversion idealized as unbounded truncation (`intTrunc`);
`RoundGo` below keeps the `int64` bounds of the real conversion, and the
two agree whenever `val*ratio+0.5` truncates into `int64` range. -/
def Round (val : ℚ) (precision : ℕ) : ℚ :=
  (intTrunc (val * goRatio precision + 1 / 2) : ℚ) / goRatio precision

/-- Bounds of Go `int` (64-bit on every platform this program targets):
`math.MinInt64`. -/
def int64Min : ℤ := -(2 ^ 63)

/-- Bounds of Go `int`: `math.MaxInt64`. -/
def int64Max : ℤ := 2 ^ 63 - 1

/-- Go `int(x)` conversion including the out-of-range case: when the
truncated value does not fit in `int64`, the Go specification leaves the
result implementation-specific; the gc compiler on amd64 compiles the
conversion to `cvttsd2si`, which yields `math.MinInt64` for every such
operand, and that choice is modelled here.  On in-range operands this
agrees with the idealized `intTrunc`. -/
def intTruncGo (q : ℚ) : ℤ :=
  if intTrunc q < int64Min ∨ int64Max < intTrunc q then int64Min
  else intTrunc q

/-- `utils.Round` under the gc/amd64 conversion semantics. -/
def RoundGo (val : ℚ) (precision : ℕ) : ℚ :=
  (intTruncGo (val * goRatio precision + 1 / 2) : ℚ) / goRatio precision

/-- A `float64` result: finite rational or an IEEE special value. -/
inductive GoFloat where
  | finite (q : ℚ)
  | posInf
  | negInf
  | nan
deriving DecidableEq

/-- Go float64 division, including the IEEE behaviour on a zero divisor. -/
def goDiv (a b : ℚ) : GoFloat :=
  if b = 0 then
    if 0 < a then .posInf else if a < 0 then .negInf else .nan
  else
    .finite (a / b)

/-- The literal string `value` substituted by `utils.Calculate`. -/
def strValue : List Char := ['v', 'a', 'l', 'u', 'e']

/-- The substituted-and-trimmed expression built at the top of
`utils.Calculate`. -/
def substExpr (value : ℚ) (expr : List Char) : List Char :=
  goTrimSpace (replaceAll strValue (formatF value) expr)

/-- `utils.Calculate`: tries `*`, `/`, `+`, `-` in order; on a split into
exactly two parts whose second part parses as a float, applies the
operation to the original `value`; otherwise returns `value` unchanged. -/
def Calculate (value : ℚ) (expr : List Char) : GoFloat :=
  let e := substExpr value expr
  if containsChar '*' e then
    match splitOnChar '*' e with
    | [_, p2] =>
      match parseGoFloat (goTrimSpace p2) with
      | some multiplier => .finite (value * multiplier)
      | none => .finite value
    | _ => .finite value
  else if containsChar '/' e then
    match splitOnChar '/' e with
    | [_, p2] =>
      match parseGoFloat (goTrimSpace p2) with
      | some divisor => goDiv value divisor
      | none => .finite value
    | _ => .finite value
  else if containsChar '+' e then
    match splitOnChar '+' e with
    | [_, p2] =>
      match parseGoFloat (goTrimSpace p2) with
      | some addend => .finite (value + addend)
      | none => .finite value
    | _ => .finite value
  else if containsChar '-' e then
    match splitOnChar '-' e with
    | [_, p2] =>
      match parseGoFloat (goTrimSpace p2) with
      | some subtrahend => .finite (value - subtrahend)
      | none => .finite value
    | _ => .finite value
  else
    .finite value

/-! ## internal/parsers/parser.go -/

/-- `config.FilterConfig`. -/
structure FilterConfig where
  Include : List String
  Exclude : List String

/-- The regex engine behind `regexp.MatchString`, abstracted: `none`
models a pattern that fails to compile (`MatchString` then returns
`(false, err)`). -/
def RegexMatcher : Type := String → String → Option Bool

/-- The `matched` boolean the code reads from
`matched, _ := regexp.MatchString(pattern, key)`: the error is ignored,
so a failed compile yields `false`. -/
def goMatched (m : RegexMatcher) (pattern key : String) : Bool :=
  (m pattern key).getD false

/-- The include loop of `parsers.ApplyFilters`:
`include := len(filter.Include) == 0`, then any matching pattern sets it. -/
def includeKey (m : RegexMatcher) (f : FilterConfig) (key : String) : Bool :=
  decide (f.Include = []) || f.Include.any (fun p => goMatched m p key)

/-- The exclude loop of `parsers.ApplyFilters`. -/
def excludeKey (m : RegexMatcher) (f : FilterConfig) (key : String) : Bool :=
  f.Exclude.any (fun p => goMatched m p key)

/-- `parsers.ApplyFilters`: keeps an entry iff it is included and not
excluded.  Total by construction, mirroring the Go signature which has
no error result. -/
def ApplyFilters {α : Type} (m : RegexMatcher) (data : List (String × α))
    (f : FilterConfig) : List (String × α) :=
  data.filter (fun p => includeKey m f p.1 && !excludeKey m f p.1)

/-! ## internal/metrics/system.go -/

/-- A metric value sent over the result channel (Go `interface{}`). -/
inductive MetricValue where
  | num (q : ℚ)
  | uint (n : ℕ)
  | int (n : ℤ)
  | str (s : String)
  | floatList (l : List ℚ)
deriving DecidableEq

/-- gopsutil `mem.VirtualMemoryStat` (the fields the code reads). -/
structure VirtualMemoryStat where
  total : ℕ
  available : ℕ
  usedPercent : ℚ
  cached : ℕ
  buffers : ℕ
deriving DecidableEq

/-- gopsutil `mem.SwapMemoryStat`. -/
structure SwapMemoryStat where
  total : ℕ
  used : ℕ
  usedPercent : ℚ
deriving DecidableEq

/-- gopsutil `disk.UsageStat`. -/
structure DiskUsageStat where
  total : ℕ
  free : ℕ
  usedPercent : ℚ
  inodesUsedPercent : ℚ
deriving DecidableEq

/-- gopsutil `disk.IOCountersStat` (per device). -/
structure DiskIOCounter where
  readBytes : ℕ
  writeBytes : ℕ
  readCount : ℕ
  writeCount : ℕ
deriving DecidableEq

/-- gopsutil `net.IOCountersStat`. -/
structure NetIOCounter where
  bytesSent : ℕ
  bytesRecv : ℕ
  packetsSent : ℕ
  packetsRecv : ℕ
  errin : ℕ
  errout : ℕ
deriving DecidableEq

/-- gopsutil `load.AvgStat`. -/
structure LoadAvgStat where
  load1 : ℚ
  load5 : ℚ
  load15 : ℚ
deriving DecidableEq

/-- gopsutil `host.InfoStat` (the fields the code reads). -/
structure HostInfoStat where
  uptime : ℕ
  bootTime : ℕ
  platform : String
  platformVersion : String
  hostname : String
  kernelVersion : String
deriving DecidableEq

/-- The outcome of every subsystem probe a single physical collection
may perform; `none` models a probe returning an error.  The two CPU
percentage fields correspond to `cpu.Percent(interval, true)` and
`cpu.Percent(interval, false)`. -/
structure Sample where
  cpuPercentPerCore : Option (List ℚ)
  cpuPercentTotal : Option (List ℚ)
  cpuCountLogical : Option ℤ
  cpuCountPhysical : Option ℤ
  loadAvg : Option LoadAvgStat
  virtualMemory : Option VirtualMemoryStat
  swapMemory : Option SwapMemoryStat
  diskUsage : Option DiskUsageStat
  diskIOCounters : Option (List DiskIOCounter)
  netIOCounters : Option (List NetIOCounter)
  connections : Option ℕ
  processes : Option ℕ
  hostInfo : Option HostInfoStat
deriving DecidableEq

/-- The `requestedMetrics` lookup map built by `Init`. -/
def Req : Type := String → Bool

/-- `metricGroups`: pre-parsed group flags. -/
structure MetricGroups where
  cpuUsage : Bool
  cpuInfo : Bool
  memory : Bool
  swap : Bool
  diskUsage : Bool
  diskIo : Bool
  network : Bool
  netConn : Bool
  processCount : Bool
  hostInfo : Bool

/-- The group computation in `Init` (system.go lines 85-104). -/
def computeGroups (req : Req) : MetricGroups where
  cpuUsage := req "cpu_usage_percent" || req "cpu_usage_per_core"
  cpuInfo := req "cpu_count" || req "cpu_count_physical" ||
    req "cpu_load_1min" || req "cpu_load_5min" || req "cpu_load_15min"
  memory := req "ram_usage_percent" || req "available_ram_mb" ||
    req "total_ram_mb" || req "ram_cached_mb" || req "ram_buffers_mb"
  swap := req "swap_usage_percent" || req "swap_total_mb" || req "swap_used_mb"
  diskUsage := req "disk_usage_percent" || req "available_disk_gb" ||
    req "total_disk_gb" || req "inode_usage_percent"
  diskIo := req "disk_read_bytes" || req "disk_write_bytes" ||
    req "disk_read_bytes_per_sec" || req "disk_write_bytes_per_sec" ||
    req "disk_read_count" || req "disk_write_count"
  network := req "network_bytes_sent" || req "network_bytes_recv" ||
    req "network_bytes_sent_per_sec" || req "network_bytes_recv_per_sec" ||
    req "network_packets_sent" || req "network_packets_recv" ||
    req "network_errors_in" || req "network_errors_out"
  netConn := req "active_connections"
  processCount := req "process_count"
  hostInfo := req "system_uptime_seconds" || req "boot_time_unix" ||
    req "os_platform" || req "os_version" ||
    req "hostname" || req "kernel_version"

/-- `bytesToMB = 1.0 / 1048576.0` (exactly representable). -/
def bytesToMB : ℚ := 1 / 1048576

/-- `bytesToGB = 1.0 / 1073741824.0` (exactly representable). -/
def bytesToGB : ℚ := 1 / 1073741824

/-- A conditional `send` on the result channel. -/
def sendIf (b : Bool) (k : String) (v : MetricValue) :
    List (String × MetricValue) :=
  if b then [(k, v)] else []

/-- Go `uint64` subtraction `a - b` (wraps modulo `2^64`). -/
def sub64 (a b : ℕ) : ℕ := (a + 2 ^ 64 - b) % 2 ^ 64

/-- Sum of `ReadBytes` over `disk.IOCounters()`. -/
def totalReadOf (cs : List DiskIOCounter) : ℕ := (cs.map (·.readBytes)).sum

/-- Sum of `WriteBytes` over `disk.IOCounters()`. -/
def totalWriteOf (cs : List DiskIOCounter) : ℕ := (cs.map (·.writeBytes)).sum

/-- Sum of `ReadCount` over `disk.IOCounters()`. -/
def totalReadsOf (cs : List DiskIOCounter) : ℕ := (cs.map (·.readCount)).sum

/-- Sum of `WriteCount` over `disk.IOCounters()`. -/
def totalWritesOf (cs : List DiskIOCounter) : ℕ := (cs.map (·.writeCount)).sum

/-- The cpu-usage goroutine (system.go lines 171-206). -/
def emitCpuUsage (req : Req) (s : Sample) : List (String × MetricValue) :=
  let wantPercent := req "cpu_usage_percent"
  let wantPerCore := req "cpu_usage_per_core"
  if wantPercent && wantPerCore then
    match s.cpuPercentPerCore with
    | some percent =>
      if 0 < percent.length then
        let coreMetrics := percent.map (fun p => Round p 2)
        [("cpu_usage_per_core", .floatList coreMetrics),
         ("cpu_usage_percent", .num (Round (coreMetrics.sum / percent.length) 2))]
      else []
    | none => []
  else if wantPercent then
    match s.cpuPercentTotal with
    | some percent =>
      match percent with
      | p :: _ => [("cpu_usage_percent", .num (Round p 2))]
      | [] => []
    | none => []
  else if wantPerCore then
    match s.cpuPercentPerCore with
    | some percent =>
      [("cpu_usage_per_core", .floatList (percent.map (fun p => Round p 2)))]
    | none => []
  else []

/-- The cpu-info/load goroutine (system.go lines 209-240). -/
def emitCpuInfo (req : Req) (s : Sample) : List (String × MetricValue) :=
  (if req "cpu_count" then
    match s.cpuCountLogical with
    | some count => [("cpu_count", .int count)]
    | none => []
  else []) ++
  (if req "cpu_count_physical" then
    match s.cpuCountPhysical with
    | some count => [("cpu_count_physical", .int count)]
    | none => []
  else []) ++
  (if req "cpu_load_1min" || req "cpu_load_5min" || req "cpu_load_15min" then
    match s.loadAvg with
    | some avg =>
      sendIf (req "cpu_load_1min") "cpu_load_1min" (.num (Round avg.load1 2)) ++
      sendIf (req "cpu_load_5min") "cpu_load_5min" (.num (Round avg.load5 2)) ++
      sendIf (req "cpu_load_15min") "cpu_load_15min" (.num (Round avg.load15 2))
    | none => []
  else [])

/-- The memory goroutine (system.go lines 243-266). -/
def emitMemory (req : Req) (s : Sample) : List (String × MetricValue) :=
  match s.virtualMemory with
  | some v =>
    sendIf (req "ram_usage_percent") "ram_usage_percent"
      (.num (Round v.usedPercent 2)) ++
    sendIf (req "available_ram_mb") "available_ram_mb"
      (.num (Round ((v.available : ℚ) * bytesToMB) 2)) ++
    sendIf (req "total_ram_mb") "total_ram_mb"
      (.num (Round ((v.total : ℚ) * bytesToMB) 2)) ++
    sendIf (req "ram_cached_mb") "ram_cached_mb"
      (.num (Round ((v.cached : ℚ) * bytesToMB) 2)) ++
    sendIf (req "ram_buffers_mb") "ram_buffers_mb"
      (.num (Round ((v.buffers : ℚ) * bytesToMB) 2))
  | none => []

/-- The swap goroutine (system.go lines 269-286). -/
def emitSwap (req : Req) (s : Sample) : List (String × MetricValue) :=
  match s.swapMemory with
  | some sw =>
    sendIf (req "swap_usage_percent") "swap_usage_percent"
      (.num (Round sw.usedPercent 2)) ++
    sendIf (req "swap_total_mb") "swap_total_mb"
      (.num (Round ((sw.total : ℚ) * bytesToMB) 2)) ++
    sendIf (req "swap_used_mb") "swap_used_mb"
      (.num (Round ((sw.used : ℚ) * bytesToMB) 2))
  | none => []

/-- The disk-usage goroutine (system.go lines 289-309). -/
def emitDiskUsage (req : Req) (s : Sample) : List (String × MetricValue) :=
  match s.diskUsage with
  | some usage =>
    sendIf (req "disk_usage_percent") "disk_usage_percent"
      (.num (Round usage.usedPercent 2)) ++
    sendIf (req "available_disk_gb") "available_disk_gb"
      (.num (Round ((usage.free : ℚ) * bytesToGB) 2)) ++
    sendIf (req "total_disk_gb") "total_disk_gb"
      (.num (Round ((usage.total : ℚ) * bytesToGB) 2)) ++
    sendIf (req "inode_usage_percent") "inode_usage_percent"
      (.num (Round usage.inodesUsedPercent 2))
  | none => []

/-- The disk-I/O goroutine (system.go lines 312-352); the per-second
rates use the wrapping `uint64` difference made explicit by `sub64`. -/
def emitDiskIo (req : Req) (s : Sample) (prevDiskRead prevDiskWrite : ℕ)
    (timeDelta : ℚ) : List (String × MetricValue) :=
  match s.diskIOCounters with
  | some counters =>
    sendIf (req "disk_read_bytes") "disk_read_bytes"
      (.uint (totalReadOf counters)) ++
    sendIf (req "disk_write_bytes") "disk_write_bytes"
      (.uint (totalWriteOf counters)) ++
    sendIf (req "disk_read_count") "disk_read_count"
      (.uint (totalReadsOf counters)) ++
    sendIf (req "disk_write_count") "disk_write_count"
      (.uint (totalWritesOf counters)) ++
    sendIf (req "disk_read_bytes_per_sec" && decide (0 < prevDiskRead) &&
        decide (0 < timeDelta)) "disk_read_bytes_per_sec"
      (.num (Round ((sub64 (totalReadOf counters) prevDiskRead : ℚ) / timeDelta) 2)) ++
    sendIf (req "disk_write_bytes_per_sec" && decide (0 < prevDiskWrite) &&
        decide (0 < timeDelta)) "disk_write_bytes_per_sec"
      (.num (Round ((sub64 (totalWriteOf counters) prevDiskWrite : ℚ) / timeDelta) 2))
  | none => []

/-- The network goroutine (system.go lines 355-395); uses `counters[0]`
and is skipped when the probe fails or returns an empty slice. -/
def emitNetwork (req : Req) (s : Sample) (prevNetSent prevNetRecv : ℕ)
    (timeDelta : ℚ) : List (String × MetricValue) :=
  match s.netIOCounters with
  | some (c :: _) =>
    sendIf (req "network_bytes_sent") "network_bytes_sent" (.uint c.bytesSent) ++
    sendIf (req "network_bytes_recv") "network_bytes_recv" (.uint c.bytesRecv) ++
    sendIf (req "network_packets_sent") "network_packets_sent"
      (.uint c.packetsSent) ++
    sendIf (req "network_packets_recv") "network_packets_recv"
      (.uint c.packetsRecv) ++
    sendIf (req "network_errors_in") "network_errors_in" (.uint c.errin) ++
    sendIf (req "network_errors_out") "network_errors_out" (.uint c.errout) ++
    sendIf (req "network_bytes_sent_per_sec" && decide (0 < prevNetSent) &&
        decide (0 < timeDelta)) "network_bytes_sent_per_sec"
      (.num (Round ((sub64 c.bytesSent prevNetSent : ℚ) / timeDelta) 2)) ++
    sendIf (req "network_bytes_recv_per_sec" && decide (0 < prevNetRecv) &&
        decide (0 < timeDelta)) "network_bytes_recv_per_sec"
      (.num (Round ((sub64 c.bytesRecv prevNetRecv : ℚ) / timeDelta) 2))
  | _ => []

/-- The connections goroutine (system.go lines 398-406). -/
def emitNetConn (s : Sample) : List (String × MetricValue) :=
  match s.connections with
  | some n => [("active_connections", .int n)]
  | none => []

/-- The process-count goroutine (system.go lines 409-417). -/
def emitProcessCount (s : Sample) : List (String × MetricValue) :=
  match s.processes with
  | some n => [("process_count", .int n)]
  | none => []

/-- The host-info goroutine (system.go lines 420-446). -/
def emitHostInfo (req : Req) (s : Sample) : List (String × MetricValue) :=
  match s.hostInfo with
  | some info =>
    sendIf (req "system_uptime_seconds") "system_uptime_seconds"
      (.num (info.uptime : ℚ)) ++
    sendIf (req "boot_time_unix") "boot_time_unix" (.uint info.bootTime) ++
    sendIf (req "os_platform") "os_platform" (.str info.platform) ++
    sendIf (req "os_version") "os_version" (.str info.platformVersion) ++
    sendIf (req "hostname") "hostname" (.str info.hostname) ++
    sendIf (req "kernel_version") "kernel_version" (.str info.kernelVersion)
  | none => []

/-- `previousMetrics`: the rate-tracker state. -/
structure PreviousMetrics where
  diskReadBytes : ℕ
  diskWriteBytes : ℕ
  netBytesSent : ℕ
  netBytesRecv : ℕ
  timestamp : ℤ
deriving DecidableEq

/-- Result of one physical collection: the metric mapping together with
the rate-tracker state after the stores performed by the goroutines. -/
structure CollectionResult where
  metrics : List (String × MetricValue)
  prev : PreviousMetrics
deriving DecidableEq

/-- `doActualCollection` (system.go lines 143-463).  The goroutines only
append distinct keys to the shared map, so the fan-out/fan-in is
modelled as list concatenation; `timeDelta` is the elapsed time in
seconds; the `atomic.StoreUint64` calls at the end of the disk and
network goroutines become the `prev` component of the result, and the
final `atomic.StoreInt64` sets `prev.timestamp` to `nowNano`. -/
def doActualCollection (req : Req) (s : Sample) (prev : PreviousMetrics)
    (nowNano : ℤ) : CollectionResult :=
  let g := computeGroups req
  let timeDelta : ℚ := ((nowNano - prev.timestamp : ℤ) : ℚ) / 1000000000
  { metrics :=
      (if g.cpuUsage then emitCpuUsage req s else []) ++
      (if g.cpuInfo then emitCpuInfo req s else []) ++
      (if g.memory then emitMemory req s else []) ++
      (if g.swap then emitSwap req s else []) ++
      (if g.diskUsage then emitDiskUsage req s else []) ++
      (if g.diskIo then
        emitDiskIo req s prev.diskReadBytes prev.diskWriteBytes timeDelta
      else []) ++
      (if g.network then
        emitNetwork req s prev.netBytesSent prev.netBytesRecv timeDelta
      else []) ++
      (if g.netConn then emitNetConn s else []) ++
      (if g.processCount then emitProcessCount s else []) ++
      (if g.hostInfo then emitHostInfo req s else []),
    prev :=
      { diskReadBytes :=
          if g.diskIo then
            match s.diskIOCounters with
            | some counters => totalReadOf counters
            | none => prev.diskReadBytes
          else prev.diskReadBytes,
        diskWriteBytes :=
          if g.diskIo then
            match s.diskIOCounters with
            | some counters => totalWriteOf counters
            | none => prev.diskWriteBytes
          else prev.diskWriteBytes,
        netBytesSent :=
          if g.network then
            match s.netIOCounters with
            | some (c :: _) => c.bytesSent
            | _ => prev.netBytesSent
          else prev.netBytesSent,
        netBytesRecv :=
          if g.network then
            match s.netIOCounters with
            | some (c :: _) => c.bytesRecv
            | _ => prev.netBytesRecv
          else prev.netBytesRecv,
        timestamp := nowNano } }

/-- The mutable collector state: rate tracker plus cache. -/
structure SysState where
  prev : PreviousMetrics
  cachedMetrics : Option (List (String × MetricValue))
  cacheTimestamp : ℤ
  collectCount : ℕ
deriving DecidableEq

/-- The freshness test performed (twice) by `CollectSystem`:
`cachedTime > 0 && (nowNano-cachedTime) < cacheTTL` and a non-nil cached
value. -/
def cacheFresh (ttl : ℤ) (st : SysState) (now : ℤ) : Bool :=
  decide (0 < st.cacheTimestamp) && decide (now - st.cacheTimestamp < ttl) &&
    st.cachedMetrics.isSome

/-- `CollectSystem` (system.go lines 109-141) as one serialized step:
the fast path returns the cached snapshot without touching any state;
otherwise — under `collectionMutex`, whose double-checked re-test is the
same predicate — one physical collection runs and the cache is replaced.
`collectCount` is a ghost counter of `doActualCollection` invocations. -/
def CollectSystem (req : Req) (ttl : ℤ) (st : SysState) (now : ℤ)
    (s : Sample) : List (String × MetricValue) × SysState :=
  if cacheFresh ttl st now then
    (st.cachedMetrics.getD [], st)
  else
    let r := doActualCollection req s st.prev now
    (r.metrics,
     { prev := r.prev,
       cachedMetrics := some r.metrics,
       cacheTimestamp := now,
       collectCount := st.collectCount + 1 })

/-- A serialized sequence of `CollectSystem` calls, each with its own
arrival time and probe outcomes; returns every call's snapshot and the
final state. -/
def runCalls (req : Req) (ttl : ℤ) :
    SysState → List (ℤ × Sample) → List (List (String × MetricValue)) × SysState
  | st, [] => ([], st)
  | st, (t, s) :: rest =>
    let r1 := CollectSystem req ttl st t s
    let r2 := runCalls req ttl r1.2 rest
    (r1.1 :: r2.1, r2.2)

/-- The key set of a metric mapping. -/
def keysOf (l : List (String × MetricValue)) : List String := l.map Prod.fst

/-- A key of the shape `*_per_sec`. -/
def isPerSecKey (k : String) : Bool :=
  "_per_sec".data.isSuffixOf k.data

/-- Modelled from the spec: "percentages/floats are rounded to 2 decimals
using round-half-up" — the textbook round-half-up at a given decimal
precision, for comparison with the code's `Round`. -/
def roundHalfUp (val : ℚ) (precision : ℕ) : ℚ :=
  ((⌊val * 10 ^ precision + 1 / 2⌋ : ℤ) : ℚ) / 10 ^ precision

/-! ## Concrete fixtures used by witnesses and counterexamples -/

/-- A request set containing every metric name. -/
def reqTrue : Req := fun _ => true

/-- A sample in which every probe failed. -/
def smpNone : Sample :=
  { cpuPercentPerCore := none, cpuPercentTotal := none,
    cpuCountLogical := none, cpuCountPhysical := none, loadAvg := none,
    virtualMemory := none, swapMemory := none, diskUsage := none,
    diskIOCounters := none, netIOCounters := none, connections := none,
    processes := none, hostInfo := none }

/-- A sample whose only successful probe is disk I/O with the given
cumulative read-byte total. -/
def smpDisk (rb : ℕ) : Sample :=
  { smpNone with
    diskIOCounters :=
      some [{ readBytes := rb, writeBytes := 0, readCount := 0, writeCount := 0 }] }

/-- A rate-tracker state with the given previous disk-read counter and
timestamp. -/
def prevAt (dr : ℕ) (ts : ℤ) : PreviousMetrics :=
  { diskReadBytes := dr, diskWriteBytes := 0, netBytesSent := 0,
    netBytesRecv := 0, timestamp := ts }

/-- A request set containing exactly `disk_read_bytes_per_sec`. -/
def reqDiskRate : Req := fun k => k == "disk_read_bytes_per_sec"

/-- The rate fed to `Round` once the `uint64` subtraction has wrapped:
`(2^64 - (previous - current)) / elapsedSeconds`. -/
def wrapRate (prevCount cur : ℕ) (prevTs now : ℤ) : ℚ :=
  ((2 ^ 64 - (prevCount - cur) : ℕ) : ℚ) /
    (((now - prevTs : ℤ) : ℚ) / 1000000000)

/-- The disk counter list carried by `smpDisk 500`. -/
def dio500 : List DiskIOCounter :=
  [{ readBytes := 500, writeBytes := 0, readCount := 0, writeCount := 0 }]

/-- A request set containing exactly `process_count`. -/
def reqProc : Req := fun k => k == "process_count"

/-- A sample whose only successful probe is the process list. -/
def smpProc : Sample := { smpNone with processes := some 3 }

/-- A request set containing exactly `available_ram_mb`. -/
def reqRam : Req := fun k => k == "available_ram_mb"

/-- A sample whose only successful probe is virtual memory, with the
given available-byte count. -/
def smpRam (avail : ℕ) : Sample :=
  { smpNone with
    virtualMemory :=
      some { total := 0, available := avail, usedPercent := 0, cached := 0,
             buffers := 0 } }

/-! ## Helper lemmas about the collector -/

theorem mem_keysOf_append {k : String} {l1 l2 : List (String × MetricValue)} :
    k ∈ keysOf (l1 ++ l2) ↔ k ∈ keysOf l1 ∨ k ∈ keysOf l2 := by
  simp [keysOf]

theorem mem_keysOf_sendIf {k : String} {b : Bool} {key : String}
    {v : MetricValue} (h : k ∈ keysOf (sendIf b key v)) : b = true ∧ k = key := by
  unfold sendIf at h
  split at h
  · simp only [keysOf, List.map_cons, List.map_nil, List.mem_singleton] at h
    exact ⟨by assumption, h⟩
  · simp [keysOf] at h

theorem keys_emitCpuUsage {req : Req} {s : Sample} {k : String}
    (hk : k ∈ keysOf (emitCpuUsage req s)) :
    req k = true ∧ (k = "cpu_usage_per_core" ∨ k = "cpu_usage_percent") := by
  unfold emitCpuUsage at hk
  dsimp only at hk
  split at hk
  next hboth =>
    rw [Bool.and_eq_true] at hboth
    split at hk
    · split at hk
      · simp only [keysOf, List.map_cons, List.map_nil, List.mem_cons,
          List.mem_singleton, List.not_mem_nil, or_false] at hk
        rcases hk with rfl | rfl
        · exact ⟨hboth.2, Or.inl rfl⟩
        · exact ⟨hboth.1, Or.inr rfl⟩
      · simp [keysOf] at hk
    · simp [keysOf] at hk
  next =>
    split at hk
    next hp =>
      split at hk
      · split at hk
        · simp only [keysOf, List.map_cons, List.map_nil,
            List.mem_singleton] at hk
          exact ⟨hk ▸ hp, Or.inr hk⟩
        · simp [keysOf] at hk
      · simp [keysOf] at hk
    next =>
      split at hk
      next hc =>
        split at hk
        · simp only [keysOf, List.map_cons, List.map_nil,
            List.mem_singleton] at hk
          exact ⟨hk ▸ hc, Or.inl hk⟩
        · simp [keysOf] at hk
      next => simp [keysOf] at hk

theorem keys_emitCpuInfo {req : Req} {s : Sample} {k : String}
    (hk : k ∈ keysOf (emitCpuInfo req s)) :
    req k = true ∧ k ∈ ["cpu_count", "cpu_count_physical", "cpu_load_1min",
      "cpu_load_5min", "cpu_load_15min"] := by
  unfold emitCpuInfo at hk
  rw [mem_keysOf_append, mem_keysOf_append] at hk
  rcases hk with (h | h) | h
  · split at h
    next hr =>
      split at h
      · simp only [keysOf, List.map_cons, List.map_nil, List.mem_singleton] at h
        exact ⟨h ▸ hr, by simp [h]⟩
      · simp [keysOf] at h
    next => simp [keysOf] at h
  · split at h
    next hr =>
      split at h
      · simp only [keysOf, List.map_cons, List.map_nil, List.mem_singleton] at h
        exact ⟨h ▸ hr, by simp [h]⟩
      · simp [keysOf] at h
    next => simp [keysOf] at h
  · split at h
    next =>
      split at h
      · rw [mem_keysOf_append, mem_keysOf_append] at h
        rcases h with (h | h) | h <;>
          (obtain ⟨hb, rfl⟩ := mem_keysOf_sendIf h; exact ⟨hb, by simp⟩)
      · simp [keysOf] at h
    next => simp [keysOf] at h

theorem keys_emitMemory {req : Req} {s : Sample} {k : String}
    (hk : k ∈ keysOf (emitMemory req s)) :
    req k = true ∧ k ∈ ["ram_usage_percent", "available_ram_mb",
      "total_ram_mb", "ram_cached_mb", "ram_buffers_mb"] := by
  unfold emitMemory at hk
  split at hk
  · rw [mem_keysOf_append, mem_keysOf_append, mem_keysOf_append,
      mem_keysOf_append] at hk
    rcases hk with (((h | h) | h) | h) | h <;>
      (obtain ⟨hb, rfl⟩ := mem_keysOf_sendIf h; exact ⟨hb, by simp⟩)
  · simp [keysOf] at hk

theorem keys_emitSwap {req : Req} {s : Sample} {k : String}
    (hk : k ∈ keysOf (emitSwap req s)) :
    req k = true ∧ k ∈ ["swap_usage_percent", "swap_total_mb", "swap_used_mb"] := by
  unfold emitSwap at hk
  split at hk
  · rw [mem_keysOf_append, mem_keysOf_append] at hk
    rcases hk with (h | h) | h <;>
      (obtain ⟨hb, rfl⟩ := mem_keysOf_sendIf h; exact ⟨hb, by simp⟩)
  · simp [keysOf] at hk

theorem keys_emitDiskUsage {req : Req} {s : Sample} {k : String}
    (hk : k ∈ keysOf (emitDiskUsage req s)) :
    req k = true ∧ k ∈ ["disk_usage_percent", "available_disk_gb",
      "total_disk_gb", "inode_usage_percent"] := by
  unfold emitDiskUsage at hk
  split at hk
  · rw [mem_keysOf_append, mem_keysOf_append, mem_keysOf_append] at hk
    rcases hk with ((h | h) | h) | h <;>
      (obtain ⟨hb, rfl⟩ := mem_keysOf_sendIf h; exact ⟨hb, by simp⟩)
  · simp [keysOf] at hk

theorem keys_emitDiskIo {req : Req} {s : Sample} {pR pW : ℕ} {Δ : ℚ}
    {k : String} (hk : k ∈ keysOf (emitDiskIo req s pR pW Δ)) :
    req k = true ∧
      (k ∈ ["disk_read_bytes", "disk_write_bytes", "disk_read_count",
        "disk_write_count"] ∨
       (k = "disk_read_bytes_per_sec" ∧ 0 < pR ∧ 0 < Δ) ∨
       (k = "disk_write_bytes_per_sec" ∧ 0 < pW ∧ 0 < Δ)) := by
  unfold emitDiskIo at hk
  split at hk
  · rw [mem_keysOf_append, mem_keysOf_append, mem_keysOf_append,
      mem_keysOf_append, mem_keysOf_append] at hk
    rcases hk with ((((h | h) | h) | h) | h) | h
    · obtain ⟨hb, rfl⟩ := mem_keysOf_sendIf h
      exact ⟨hb, Or.inl (by simp)⟩
    · obtain ⟨hb, rfl⟩ := mem_keysOf_sendIf h
      exact ⟨hb, Or.inl (by simp)⟩
    · obtain ⟨hb, rfl⟩ := mem_keysOf_sendIf h
      exact ⟨hb, Or.inl (by simp)⟩
    · obtain ⟨hb, rfl⟩ := mem_keysOf_sendIf h
      exact ⟨hb, Or.inl (by simp)⟩
    · obtain ⟨hb, rfl⟩ := mem_keysOf_sendIf h
      simp only [Bool.and_eq_true, decide_eq_true_eq] at hb
      exact ⟨hb.1.1, Or.inr (Or.inl ⟨rfl, hb.1.2, hb.2⟩)⟩
    · obtain ⟨hb, rfl⟩ := mem_keysOf_sendIf h
      simp only [Bool.and_eq_true, decide_eq_true_eq] at hb
      exact ⟨hb.1.1, Or.inr (Or.inr ⟨rfl, hb.1.2, hb.2⟩)⟩
  · simp [keysOf] at hk

theorem keys_emitNetwork {req : Req} {s : Sample} {pS pR : ℕ} {Δ : ℚ}
    {k : String} (hk : k ∈ keysOf (emitNetwork req s pS pR Δ)) :
    req k = true ∧
      (k ∈ ["network_bytes_sent", "network_bytes_recv", "network_packets_sent",
        "network_packets_recv", "network_errors_in", "network_errors_out"] ∨
       (k = "network_bytes_sent_per_sec" ∧ 0 < pS ∧ 0 < Δ) ∨
       (k = "network_bytes_recv_per_sec" ∧ 0 < pR ∧ 0 < Δ)) := by
  unfold emitNetwork at hk
  split at hk
  · rw [mem_keysOf_append, mem_keysOf_append, mem_keysOf_append,
      mem_keysOf_append, mem_keysOf_append, mem_keysOf_append,
      mem_keysOf_append] at hk
    rcases hk with ((((((h | h) | h) | h) | h) | h) | h) | h
    · obtain ⟨hb, rfl⟩ := mem_keysOf_sendIf h
      exact ⟨hb, Or.inl (by simp)⟩
    · obtain ⟨hb, rfl⟩ := mem_keysOf_sendIf h
      exact ⟨hb, Or.inl (by simp)⟩
    · obtain ⟨hb, rfl⟩ := mem_keysOf_sendIf h
      exact ⟨hb, Or.inl (by simp)⟩
    · obtain ⟨hb, rfl⟩ := mem_keysOf_sendIf h
      exact ⟨hb, Or.inl (by simp)⟩
    · obtain ⟨hb, rfl⟩ := mem_keysOf_sendIf h
      exact ⟨hb, Or.inl (by simp)⟩
    · obtain ⟨hb, rfl⟩ := mem_keysOf_sendIf h
      exact ⟨hb, Or.inl (by simp)⟩
    · obtain ⟨hb, rfl⟩ := mem_keysOf_sendIf h
      simp only [Bool.and_eq_true, decide_eq_true_eq] at hb
      exact ⟨hb.1.1, Or.inr (Or.inl ⟨rfl, hb.1.2, hb.2⟩)⟩
    · obtain ⟨hb, rfl⟩ := mem_keysOf_sendIf h
      simp only [Bool.and_eq_true, decide_eq_true_eq] at hb
      exact ⟨hb.1.1, Or.inr (Or.inr ⟨rfl, hb.1.2, hb.2⟩)⟩
  · simp [keysOf] at hk

theorem keys_emitNetConn {s : Sample} {k : String}
    (hk : k ∈ keysOf (emitNetConn s)) : k = "active_connections" := by
  unfold emitNetConn at hk
  split at hk
  · simp only [keysOf, List.map_cons, List.map_nil, List.mem_singleton] at hk
    exact hk
  · simp [keysOf] at hk

theorem keys_emitProcessCount {s : Sample} {k : String}
    (hk : k ∈ keysOf (emitProcessCount s)) : k = "process_count" := by
  unfold emitProcessCount at hk
  split at hk
  · simp only [keysOf, List.map_cons, List.map_nil, List.mem_singleton] at hk
    exact hk
  · simp [keysOf] at hk

theorem keys_emitHostInfo {req : Req} {s : Sample} {k : String}
    (hk : k ∈ keysOf (emitHostInfo req s)) :
    req k = true ∧ k ∈ ["system_uptime_seconds", "boot_time_unix",
      "os_platform", "os_version", "hostname", "kernel_version"] := by
  unfold emitHostInfo at hk
  split at hk
  · rw [mem_keysOf_append, mem_keysOf_append, mem_keysOf_append,
      mem_keysOf_append, mem_keysOf_append] at hk
    rcases hk with ((((h | h) | h) | h) | h) | h <;>
      (obtain ⟨hb, rfl⟩ := mem_keysOf_sendIf h; exact ⟨hb, by simp⟩)
  · simp [keysOf] at hk

theorem timeDelta_pos_iff {now ts : ℤ} :
    0 < (((now - ts : ℤ) : ℚ) / 1000000000) ↔ ts < now := by
  rw [lt_div_iff₀ (by norm_num : (0 : ℚ) < 1000000000), zero_mul, Int.cast_pos]
  omega

theorem intTrunc_of_nonneg {q : ℚ} (h : 0 ≤ q) : intTrunc q = ⌊q⌋ := by
  simp [intTrunc, h]

/-- On nonnegative inputs `utils.Round` at precision 2 is within `1/100`
of its argument. -/
theorem abs_Round_sub_le {q : ℚ} (h : 0 ≤ q) : |Round q 2 - q| ≤ 1 / 100 := by
  have hnn : (0 : ℚ) ≤ q * goRatio 2 + 1 / 2 := by
    have : (0 : ℚ) < goRatio 2 := by norm_num [goRatio]
    positivity
  rw [Round, intTrunc_of_nonneg hnn]
  have h1 : ((⌊q * goRatio 2 + 1 / 2⌋ : ℤ) : ℚ) ≤ q * goRatio 2 + 1 / 2 :=
    Int.floor_le _
  have h2 : q * goRatio 2 + 1 / 2 - 1 < ((⌊q * goRatio 2 + 1 / 2⌋ : ℤ) : ℚ) :=
    Int.sub_one_lt_floor _
  have hg : goRatio 2 = 100 := by norm_num [goRatio]
  rw [hg] at h1 h2 ⊢
  rw [abs_le]
  constructor <;> [linarith; linarith]

theorem sub64_eq {a b : ℕ} (hba : b ≤ a) (hlt : a - b < 2 ^ 64) :
    sub64 a b = a - b := by
  unfold sub64
  omega

/-- The disk-read rate entry emitted by a physical collection when it is
requested, the probe succeeded, the previous counter is positive and
time has elapsed. -/
theorem diskReadRate_mem {req : Req} {s : Sample} {prev : PreviousMetrics}
    {now : ℤ} {cs : List DiskIOCounter}
    (hreq : req "disk_read_bytes_per_sec" = true)
    (hcs : s.diskIOCounters = some cs)
    (hp : 0 < prev.diskReadBytes)
    (ht : prev.timestamp < now) :
    ("disk_read_bytes_per_sec",
      MetricValue.num (Round ((sub64 (totalReadOf cs) prev.diskReadBytes : ℚ) /
        (((now - prev.timestamp : ℤ) : ℚ) / 1000000000)) 2))
      ∈ (doActualCollection req s prev now).metrics := by
  have hΔ : 0 < (((now - prev.timestamp : ℤ) : ℚ) / 1000000000) :=
    timeDelta_pos_iff.mpr ht
  unfold doActualCollection
  dsimp only
  simp only [List.mem_append]
  refine Or.inl (Or.inl (Or.inl (Or.inl (Or.inr ?_))))
  rw [if_pos (show (computeGroups req).diskIo = true by
    simp [computeGroups, hreq])]
  unfold emitDiskIo
  rw [hcs]
  simp only [List.mem_append]
  refine Or.inl (Or.inr ?_)
  simp [sendIf, hreq, hp, hΔ, ht]

/-- The network-receive rate entry, under the analogous conditions. -/
theorem netRecvRate_mem {req : Req} {s : Sample} {prev : PreviousMetrics}
    {now : ℤ} {c : NetIOCounter} {cs : List NetIOCounter}
    (hreq : req "network_bytes_recv_per_sec" = true)
    (hcs : s.netIOCounters = some (c :: cs))
    (hp : 0 < prev.netBytesRecv)
    (ht : prev.timestamp < now) :
    ("network_bytes_recv_per_sec",
      MetricValue.num (Round ((sub64 c.bytesRecv prev.netBytesRecv : ℚ) /
        (((now - prev.timestamp : ℤ) : ℚ) / 1000000000)) 2))
      ∈ (doActualCollection req s prev now).metrics := by
  have hΔ : 0 < (((now - prev.timestamp : ℤ) : ℚ) / 1000000000) :=
    timeDelta_pos_iff.mpr ht
  unfold doActualCollection
  dsimp only
  simp only [List.mem_append]
  refine Or.inl (Or.inl (Or.inl (Or.inr ?_)))
  rw [if_pos (show (computeGroups req).network = true by
    simp [computeGroups, hreq])]
  unfold emitNetwork
  rw [hcs]
  simp only [List.mem_append]
  refine Or.inr ?_
  simp [sendIf, hreq, hp, hΔ, ht]

/-- The `available_ram_mb` entry: bytes are scaled by `bytesToMB` before
rounding. -/
theorem availableRam_mem {req : Req} {s : Sample} {prev : PreviousMetrics}
    {now : ℤ} {v : VirtualMemoryStat}
    (hreq : req "available_ram_mb" = true)
    (hv : s.virtualMemory = some v) :
    ("available_ram_mb",
      MetricValue.num (Round ((v.available : ℚ) * bytesToMB) 2))
      ∈ (doActualCollection req s prev now).metrics := by
  unfold doActualCollection
  dsimp only
  simp only [List.mem_append]
  refine Or.inl (Or.inl (Or.inl (Or.inl (Or.inl (Or.inl (Or.inl (Or.inr ?_)))))))
  rw [if_pos (show (computeGroups req).memory = true by
    simp [computeGroups, hreq])]
  unfold emitMemory
  rw [hv]
  simp only [List.mem_append]
  refine Or.inl (Or.inl (Or.inl (Or.inr ?_)))
  simp [sendIf, hreq]

/-- The `total_disk_gb` entry: bytes are scaled by `bytesToGB` before
rounding. -/
theorem totalDiskGb_mem {req : Req} {s : Sample} {prev : PreviousMetrics}
    {now : ℤ} {usage : DiskUsageStat}
    (hreq : req "total_disk_gb" = true)
    (hu : s.diskUsage = some usage) :
    ("total_disk_gb",
      MetricValue.num (Round ((usage.total : ℚ) * bytesToGB) 2))
      ∈ (doActualCollection req s prev now).metrics := by
  unfold doActualCollection
  dsimp only
  simp only [List.mem_append]
  refine Or.inl (Or.inl (Or.inl (Or.inl (Or.inl (Or.inr ?_)))))
  rw [if_pos (show (computeGroups req).diskUsage = true by
    simp [computeGroups, hreq])]
  unfold emitDiskUsage
  rw [hu]
  simp only [List.mem_append]
  refine Or.inl (Or.inr ?_)
  simp [sendIf, hreq]

/-- Full case analysis of a key emitted by one physical collection:
every key was requested, and a `*_per_sec` key is only present when the
corresponding previous counter was positive and time has elapsed. -/
theorem keys_doActualCollection {req : Req} {s : Sample}
    {prev : PreviousMetrics} {now : ℤ} {k : String}
    (hk : k ∈ keysOf (doActualCollection req s prev now).metrics) :
    req k = true ∧
      (isPerSecKey k = false ∨
       ((k = "disk_read_bytes_per_sec" ∧ 0 < prev.diskReadBytes ∨
         k = "disk_write_bytes_per_sec" ∧ 0 < prev.diskWriteBytes ∨
         k = "network_bytes_sent_per_sec" ∧ 0 < prev.netBytesSent ∨
         k = "network_bytes_recv_per_sec" ∧ 0 < prev.netBytesRecv) ∧
        prev.timestamp < now)) := by
  unfold doActualCollection at hk
  dsimp only at hk
  rw [mem_keysOf_append, mem_keysOf_append, mem_keysOf_append,
    mem_keysOf_append, mem_keysOf_append, mem_keysOf_append,
    mem_keysOf_append, mem_keysOf_append, mem_keysOf_append] at hk
  rcases hk with ((((((((h | h) | h) | h) | h) | h) | h) | h) | h) | h
  · split at h
    · obtain ⟨hr, hm⟩ := keys_emitCpuUsage h
      rcases hm with rfl | rfl <;> exact ⟨hr, Or.inl (by decide)⟩
    · simp [keysOf] at h
  · split at h
    · obtain ⟨hr, hm⟩ := keys_emitCpuInfo h
      simp only [List.mem_cons, List.mem_singleton, List.not_mem_nil,
        or_false] at hm
      rcases hm with rfl | rfl | rfl | rfl | rfl <;>
        exact ⟨hr, Or.inl (by decide)⟩
    · simp [keysOf] at h
  · split at h
    · obtain ⟨hr, hm⟩ := keys_emitMemory h
      simp only [List.mem_cons, List.mem_singleton, List.not_mem_nil,
        or_false] at hm
      rcases hm with rfl | rfl | rfl | rfl | rfl <;>
        exact ⟨hr, Or.inl (by decide)⟩
    · simp [keysOf] at h
  · split at h
    · obtain ⟨hr, hm⟩ := keys_emitSwap h
      simp only [List.mem_cons, List.mem_singleton, List.not_mem_nil,
        or_false] at hm
      rcases hm with rfl | rfl | rfl <;> exact ⟨hr, Or.inl (by decide)⟩
    · simp [keysOf] at h
  · split at h
    · obtain ⟨hr, hm⟩ := keys_emitDiskUsage h
      simp only [List.mem_cons, List.mem_singleton, List.not_mem_nil,
        or_false] at hm
      rcases hm with rfl | rfl | rfl | rfl <;> exact ⟨hr, Or.inl (by decide)⟩
    · simp [keysOf] at h
  · split at h
    · obtain ⟨hr, hm⟩ := keys_emitDiskIo h
      rcases hm with hm | ⟨rfl, hp, hd⟩ | ⟨rfl, hp, hd⟩
      · simp only [List.mem_cons, List.mem_singleton, List.not_mem_nil,
          or_false] at hm
        rcases hm with rfl | rfl | rfl | rfl <;>
          exact ⟨hr, Or.inl (by decide)⟩
      · exact ⟨hr, Or.inr ⟨Or.inl ⟨rfl, hp⟩, timeDelta_pos_iff.mp hd⟩⟩
      · exact ⟨hr, Or.inr ⟨Or.inr (Or.inl ⟨rfl, hp⟩),
          timeDelta_pos_iff.mp hd⟩⟩
    · simp [keysOf] at h
  · split at h
    · obtain ⟨hr, hm⟩ := keys_emitNetwork h
      rcases hm with hm | ⟨rfl, hp, hd⟩ | ⟨rfl, hp, hd⟩
      · simp only [List.mem_cons, List.mem_singleton, List.not_mem_nil,
          or_false] at hm
        rcases hm with rfl | rfl | rfl | rfl | rfl | rfl <;>
          exact ⟨hr, Or.inl (by decide)⟩
      · exact ⟨hr, Or.inr ⟨Or.inr (Or.inr (Or.inl ⟨rfl, hp⟩)),
          timeDelta_pos_iff.mp hd⟩⟩
      · exact ⟨hr, Or.inr ⟨Or.inr (Or.inr (Or.inr ⟨rfl, hp⟩)),
          timeDelta_pos_iff.mp hd⟩⟩
    · simp [keysOf] at h
  · split at h
    next hg =>
      obtain rfl := keys_emitNetConn h
      simp only [computeGroups] at hg
      exact ⟨hg, Or.inl (by decide)⟩
    next => simp [keysOf] at h
  · split at h
    next hg =>
      obtain rfl := keys_emitProcessCount h
      simp only [computeGroups] at hg
      exact ⟨hg, Or.inl (by decide)⟩
    next => simp [keysOf] at h
  · split at h
    · obtain ⟨hr, hm⟩ := keys_emitHostInfo h
      simp only [List.mem_cons, List.mem_singleton, List.not_mem_nil,
        or_false] at hm
      rcases hm with rfl | rfl | rfl | rfl | rfl | rfl <;>
        exact ⟨hr, Or.inl (by decide)⟩
    · simp [keysOf] at h

/-! ## Cache state-machine lemmas -/

theorem collectSystem_hit {req : Req} {ttl : ℤ} {st : SysState} {now : ℤ}
    {s : Sample} (h : cacheFresh ttl st now = true) :
    CollectSystem req ttl st now s = (st.cachedMetrics.getD [], st) := by
  simp [CollectSystem, h]

theorem collectSystem_miss {req : Req} {ttl : ℤ} {st : SysState} {now : ℤ}
    {s : Sample} (h : cacheFresh ttl st now = false) :
    CollectSystem req ttl st now s =
      ((doActualCollection req s st.prev now).metrics,
       { prev := (doActualCollection req s st.prev now).prev,
         cachedMetrics := some (doActualCollection req s st.prev now).metrics,
         cacheTimestamp := now,
         collectCount := st.collectCount + 1 }) := by
  simp [CollectSystem, h]

/-- When every remaining call sees a fresh cache, each returns the cached
snapshot and the state never changes. -/
theorem runCalls_all_hits {req : Req} {ttl : ℤ} {st : SysState}
    {calls : List (ℤ × Sample)}
    (h : ∀ p ∈ calls, cacheFresh ttl st p.1 = true) :
    runCalls req ttl st calls =
      (calls.map (fun _ => st.cachedMetrics.getD []), st) := by
  induction calls with
  | nil => rfl
  | cons c rest ih =>
    obtain ⟨t, s⟩ := c
    have hc : cacheFresh ttl st t = true := h (t, s) (by simp)
    have hrest : ∀ p ∈ rest, cacheFresh ttl st p.1 = true := by
      intro p hp
      exact h p (List.mem_cons_of_mem _ hp)
    unfold runCalls
    rw [collectSystem_hit hc]
    dsimp only
    rw [ih hrest]
    simp

theorem Round_nonneg {q : ℚ} (h : 0 ≤ q) : 0 ≤ Round q 2 := by
  have hnn : (0 : ℚ) ≤ q * goRatio 2 + 1 / 2 := by
    have : (0 : ℚ) < goRatio 2 := by norm_num [goRatio]
    positivity
  rw [Round, intTrunc_of_nonneg hnn]
  apply div_nonneg
  · exact_mod_cast Int.floor_nonneg.mpr hnn
  · norm_num [goRatio]

/-! ## Claims -/

/-- C1: starting from the post-`Init` state (no cache), any serialized
sequence of `CollectSystem` calls whose later arrivals fall within one
TTL window of the first performs exactly one physical collection
(`collectCount` rises by one) and every call returns the identical
snapshot produced by that single collection. -/
theorem C1_cache_single_flight (req : Req) (ttl : ℤ) (st0 : SysState)
    (t1 : ℤ) (s1 : Sample) (rest : List (ℤ × Sample))
    (hinit : st0.cacheTimestamp = 0)
    (ht1 : 0 < t1)
    (hwin : ∀ p ∈ rest, p.1 - t1 < ttl) :
    (runCalls req ttl st0 ((t1, s1) :: rest)).2.collectCount
        = st0.collectCount + 1 ∧
    (runCalls req ttl st0 ((t1, s1) :: rest)).1 =
      (doActualCollection req s1 st0.prev t1).metrics ::
        rest.map (fun _ => (doActualCollection req s1 st0.prev t1).metrics) := by
  have hmiss : cacheFresh ttl st0 t1 = false := by
    simp [cacheFresh, hinit]
  unfold runCalls
  rw [collectSystem_miss hmiss]
  dsimp only
  have hhits : ∀ p ∈ rest,
      cacheFresh ttl
        { prev := (doActualCollection req s1 st0.prev t1).prev,
          cachedMetrics := some (doActualCollection req s1 st0.prev t1).metrics,
          cacheTimestamp := t1,
          collectCount := st0.collectCount + 1 } p.1 = true := by
    intro p hp
    have hw := hwin p hp
    simp [cacheFresh, ht1, hw]
  rw [runCalls_all_hits hhits]
  simp

/-- C1 witness: two calls at times 1 and 2 within a TTL of 100 ns. -/
theorem C1_witness :
    (runCalls reqTrue 100
        { prev := prevAt 0 0, cachedMetrics := none, cacheTimestamp := 0,
          collectCount := 0 }
        [(1, smpNone), (2, smpNone)]).2.collectCount = 0 + 1 ∧
    (runCalls reqTrue 100
        { prev := prevAt 0 0, cachedMetrics := none, cacheTimestamp := 0,
          collectCount := 0 }
        [(1, smpNone), (2, smpNone)]).1 =
      (doActualCollection reqTrue smpNone (prevAt 0 0) 1).metrics ::
        List.map (fun _ => (doActualCollection reqTrue smpNone (prevAt 0 0) 1).metrics)
          [((2 : ℤ), smpNone)] :=
  C1_cache_single_flight reqTrue 100 _ 1 smpNone [(2, smpNone)] rfl
    (by norm_num) (by intro p hp; simp at hp; simp [hp])

/-- C3: a cache hit leaves the whole collector state — in particular
every `prevMetrics` field — untouched; a miss performs the one physical
collection, whose single batch of stores yields the new `prevMetrics`
(with `timestamp` set to the collection time) and bumps the physical
collection count by exactly one. -/
theorem C3_cache_hit_frame (req : Req) (ttl : ℤ) (st : SysState) (now : ℤ)
    (s : Sample) :
    (cacheFresh ttl st now = true →
      (CollectSystem req ttl st now s).2 = st) ∧
    (cacheFresh ttl st now = false →
      (CollectSystem req ttl st now s).2.prev =
          (doActualCollection req s st.prev now).prev ∧
        (CollectSystem req ttl st now s).2.collectCount = st.collectCount + 1 ∧
        (doActualCollection req s st.prev now).prev.timestamp = now) := by
  constructor
  · intro h
    rw [collectSystem_hit h]
  · intro h
    rw [collectSystem_miss h]
    exact ⟨rfl, rfl, rfl⟩

/-- C3 witness: a hit at a fresh cache returns the state unchanged; a
miss on the empty cache advances the tracker. -/
theorem C3_witness :
    (CollectSystem reqTrue 100
        { prev := prevAt 7 0, cachedMetrics := some [],
          cacheTimestamp := 5, collectCount := 3 } 6 smpNone).2 =
      { prev := prevAt 7 0, cachedMetrics := some [],
        cacheTimestamp := 5, collectCount := 3 } ∧
    ((CollectSystem reqTrue 100
        { prev := prevAt 7 0, cachedMetrics := none,
          cacheTimestamp := 0, collectCount := 3 } 6 smpNone).2.prev =
        (doActualCollection reqTrue smpNone (prevAt 7 0) 6).prev ∧
      (CollectSystem reqTrue 100
        { prev := prevAt 7 0, cachedMetrics := none,
          cacheTimestamp := 0, collectCount := 3 } 6 smpNone).2.collectCount
          = 3 + 1 ∧
      (doActualCollection reqTrue smpNone (prevAt 7 0) 6).prev.timestamp = 6) :=
  ⟨(C3_cache_hit_frame reqTrue 100 _ 6 smpNone).1 (by decide),
   (C3_cache_hit_frame reqTrue 100 _ 6 smpNone).2 (by decide)⟩

/-- C4: every key in the mapping produced by a physical collection was
itself requested, whatever the probe outcomes. -/
theorem C4_only_requested_keys (req : Req) (s : Sample)
    (prev : PreviousMetrics) (now : ℤ) (k : String)
    (hk : k ∈ keysOf (doActualCollection req s prev now).metrics) :
    req k = true :=
  (keys_doActualCollection hk).1

/-- C4 witness: the single key emitted for a process-count-only request
set is indeed requested. -/
theorem C4_witness :
    "process_count" ∈
      keysOf (doActualCollection reqProc smpProc (prevAt 100 0) 5).metrics ∧
    reqProc "process_count" = true :=
  ⟨by decide,
   C4_only_requested_keys reqProc smpProc (prevAt 100 0) 5 "process_count"
     (by decide)⟩

/-- C2 (amended): the first physical collection after startup — whose
stored previous counters are all at their zero value — emits no
`*_per_sec` key; a later physical collection with a positive stored
previous counter and positive elapsed time emits the `*_per_sec` value
`Round((current-previous)/elapsed, 2)`, which lies within `1/100` of the
true rate `(current-previous)/elapsed` (the code rounds the rate to two
decimals before emitting it, so exact equality up to floating tolerance
does not hold); when the previous counter is zero or no time has
elapsed, the key is omitted entirely, never emitted as zero. -/
theorem C2_rate_semantics :
    (∀ (req : Req) (s : Sample) (prev : PreviousMetrics) (now : ℤ),
      prev.diskReadBytes = 0 → prev.diskWriteBytes = 0 →
      prev.netBytesSent = 0 → prev.netBytesRecv = 0 →
      ∀ k ∈ keysOf (doActualCollection req s prev now).metrics,
        isPerSecKey k = false) ∧
    (∀ (req : Req) (s : Sample) (prev : PreviousMetrics) (now : ℤ)
      (cs : List DiskIOCounter),
      req "disk_read_bytes_per_sec" = true →
      s.diskIOCounters = some cs →
      0 < prev.diskReadBytes →
      prev.timestamp < now →
      prev.diskReadBytes ≤ totalReadOf cs →
      totalReadOf cs - prev.diskReadBytes < 2 ^ 64 →
      (("disk_read_bytes_per_sec",
        MetricValue.num (Round (((totalReadOf cs : ℚ) - (prev.diskReadBytes : ℚ)) /
          (((now - prev.timestamp : ℤ) : ℚ) / 1000000000)) 2))
        ∈ (doActualCollection req s prev now).metrics ∧
      |Round (((totalReadOf cs : ℚ) - (prev.diskReadBytes : ℚ)) /
          (((now - prev.timestamp : ℤ) : ℚ) / 1000000000)) 2 -
        ((totalReadOf cs : ℚ) - (prev.diskReadBytes : ℚ)) /
          (((now - prev.timestamp : ℤ) : ℚ) / 1000000000)| ≤ 1 / 100)) ∧
    (∀ (req : Req) (s : Sample) (prev : PreviousMetrics) (now : ℤ)
      (c : NetIOCounter) (cs : List NetIOCounter),
      req "network_bytes_recv_per_sec" = true →
      s.netIOCounters = some (c :: cs) →
      0 < prev.netBytesRecv →
      prev.timestamp < now →
      prev.netBytesRecv ≤ c.bytesRecv →
      c.bytesRecv - prev.netBytesRecv < 2 ^ 64 →
      (("network_bytes_recv_per_sec",
        MetricValue.num (Round (((c.bytesRecv : ℚ) - (prev.netBytesRecv : ℚ)) /
          (((now - prev.timestamp : ℤ) : ℚ) / 1000000000)) 2))
        ∈ (doActualCollection req s prev now).metrics ∧
      |Round (((c.bytesRecv : ℚ) - (prev.netBytesRecv : ℚ)) /
          (((now - prev.timestamp : ℤ) : ℚ) / 1000000000)) 2 -
        ((c.bytesRecv : ℚ) - (prev.netBytesRecv : ℚ)) /
          (((now - prev.timestamp : ℤ) : ℚ) / 1000000000)| ≤ 1 / 100)) ∧
    (∀ (req : Req) (s : Sample) (prev : PreviousMetrics) (now : ℤ),
      prev.diskReadBytes = 0 ∨ now ≤ prev.timestamp →
      "disk_read_bytes_per_sec" ∉
        keysOf (doActualCollection req s prev now).metrics) := by
  refine ⟨?_, ?_, ?_, ?_⟩
  · intro req s prev now h1 h2 h3 h4 k hk
    obtain ⟨-, hcase⟩ := keys_doActualCollection hk
    rcases hcase with h | ⟨hor, -⟩
    · exact h
    · rcases hor with ⟨-, hp⟩ | ⟨-, hp⟩ | ⟨-, hp⟩ | ⟨-, hp⟩ <;> omega
  · intro req s prev now cs hreq hcs hp ht hba hlt
    have hval : ((sub64 (totalReadOf cs) prev.diskReadBytes : ℕ) : ℚ) =
        (totalReadOf cs : ℚ) - (prev.diskReadBytes : ℚ) := by
      rw [sub64_eq hba hlt, Nat.cast_sub hba]
    have hmem := diskReadRate_mem hreq hcs hp ht
    rw [hval] at hmem
    refine ⟨hmem, abs_Round_sub_le ?_⟩
    apply div_nonneg
    · rw [sub_nonneg]
      exact_mod_cast hba
    · exact le_of_lt (timeDelta_pos_iff.mpr ht)
  · intro req s prev now c cs hreq hcs hp ht hba hlt
    have hval : ((sub64 c.bytesRecv prev.netBytesRecv : ℕ) : ℚ) =
        (c.bytesRecv : ℚ) - (prev.netBytesRecv : ℚ) := by
      rw [sub64_eq hba hlt, Nat.cast_sub hba]
    have hmem := netRecvRate_mem hreq hcs hp ht
    rw [hval] at hmem
    refine ⟨hmem, abs_Round_sub_le ?_⟩
    apply div_nonneg
    · rw [sub_nonneg]
      exact_mod_cast hba
    · exact le_of_lt (timeDelta_pos_iff.mpr ht)
  · intro req s prev now hor hk
    obtain ⟨-, hcase⟩ := keys_doActualCollection hk
    rcases hcase with hfalse | ⟨hks, htlt⟩
    · exact absurd hfalse (by decide)
    · rcases hks with ⟨-, hp⟩ | ⟨heq, -⟩ | ⟨heq, -⟩ | ⟨heq, -⟩
      · rcases hor with h | h <;> omega
      · exact absurd heq (by decide)
      · exact absurd heq (by decide)
      · exact absurd heq (by decide)

/-- C2 counterexample against the claim as stated: with previous counter
100, current counter 101 and 3 s elapsed, the emitted value is `0.33`,
while the true rate is `1/3`; the difference `1/300` exceeds any
floating-point comparison tolerance such as `10⁻⁶`, because the code
rounds the rate to two decimals before emitting it. -/
theorem C2_counterexample :
    ("disk_read_bytes_per_sec", MetricValue.num (33 / 100)) ∈
      (doActualCollection reqDiskRate (smpDisk 101) (prevAt 100 0)
        3000000000).metrics ∧
    (33 / 100 : ℚ) ≠
      ((101 : ℚ) - 100) / (((3000000000 - 0 : ℤ) : ℚ) / 1000000000) ∧
    ¬|(33 / 100 : ℚ) -
        ((101 : ℚ) - 100) / (((3000000000 - 0 : ℤ) : ℚ) / 1000000000)| ≤
      1 / 1000000 := by
  refine ⟨?_, by norm_num, by norm_num [abs_le]⟩
  have h := @diskReadRate_mem reqDiskRate (smpDisk 101) (prevAt 100 0)
    3000000000
    [{ readBytes := 101, writeBytes := 0, readCount := 0, writeCount := 0 }]
    (by decide) rfl (by decide) (by decide)
  have hv : Round ((sub64 (totalReadOf
      [{ readBytes := 101, writeBytes := 0, readCount := 0, writeCount := 0 }])
        ((prevAt 100 0).diskReadBytes) : ℚ) /
      (((3000000000 - (prevAt 100 0).timestamp : ℤ) : ℚ) / 1000000000)) 2 =
      33 / 100 := by
    norm_num [sub64, totalReadOf, prevAt, Round, intTrunc, goRatio]
  rw [hv] at h
  exact h

/-- C2 witness: previous counter 100, current 103, 1 s elapsed. -/
theorem C2_witness :
    ("disk_read_bytes_per_sec",
      MetricValue.num (Round (((totalReadOf
          [{ readBytes := 103, writeBytes := 0, readCount := 0, writeCount := 0 }] : ℚ) -
          ((prevAt 100 0).diskReadBytes : ℚ)) /
        (((1000000000 - (prevAt 100 0).timestamp : ℤ) : ℚ) / 1000000000)) 2))
      ∈ (doActualCollection reqDiskRate (smpDisk 103) (prevAt 100 0)
          1000000000).metrics ∧
    |Round (((totalReadOf
          [{ readBytes := 103, writeBytes := 0, readCount := 0, writeCount := 0 }] : ℚ) -
          ((prevAt 100 0).diskReadBytes : ℚ)) /
        (((1000000000 - (prevAt 100 0).timestamp : ℤ) : ℚ) / 1000000000)) 2 -
      ((totalReadOf
          [{ readBytes := 103, writeBytes := 0, readCount := 0, writeCount := 0 }] : ℚ) -
          ((prevAt 100 0).diskReadBytes : ℚ)) /
        (((1000000000 - (prevAt 100 0).timestamp : ℤ) : ℚ) / 1000000000)| ≤
      1 / 100 :=
  C2_rate_semantics.2.1 reqDiskRate (smpDisk 103) (prevAt 100 0) 1000000000
    _ (by decide) rfl (by decide) (by decide) (by decide) (by decide)

/-- C5 (amended): for nonnegative inputs — which include every
percentage and every byte-derived quantity the collector rounds —
`Round(v, 2)` is exactly round-half-up at two decimals; for strictly
negative inputs the Go `int(...)` conversion truncates toward zero, so
round-half-up fails there (see the counterexample).  Byte counts are
scaled by `1/1048576` (MB) or `1/1073741824` (GB) before the rounding is
applied. -/
theorem C5_round_semantics :
    (∀ v : ℚ, 0 ≤ v → Round v 2 = roundHalfUp v 2) ∧
    (∀ (req : Req) (s : Sample) (prev : PreviousMetrics) (now : ℤ)
      (v : VirtualMemoryStat),
      req "available_ram_mb" = true →
      s.virtualMemory = some v →
      ("available_ram_mb",
        MetricValue.num (Round ((v.available : ℚ) * bytesToMB) 2))
        ∈ (doActualCollection req s prev now).metrics) ∧
    (∀ (req : Req) (s : Sample) (prev : PreviousMetrics) (now : ℤ)
      (usage : DiskUsageStat),
      req "total_disk_gb" = true →
      s.diskUsage = some usage →
      ("total_disk_gb",
        MetricValue.num (Round ((usage.total : ℚ) * bytesToGB) 2))
        ∈ (doActualCollection req s prev now).metrics) := by
  refine ⟨?_, ?_, ?_⟩
  · intro v hv
    have hnn : (0 : ℚ) ≤ v * goRatio 2 + 1 / 2 := by
      have : (0 : ℚ) < goRatio 2 := by norm_num [goRatio]
      positivity
    rw [Round, roundHalfUp, intTrunc_of_nonneg hnn]
    norm_num [goRatio]
  · intro req s prev now v hreq hv
    exact availableRam_mem hreq hv
  · intro req s prev now usage hreq hu
    exact totalDiskGb_mem hreq hu

/-- C5 counterexample against the claim as stated: `Round(-0.01, 2)`
returns `0`, but round-half-up of `-0.01` at two decimals is `-0.01`
itself — the `int(...)` conversion truncates toward zero, which differs
from round-half-up on negative inputs. -/
theorem C5_counterexample :
    Round (-1 / 100) 2 = 0 ∧
    roundHalfUp (-1 / 100) 2 = -1 / 100 ∧
    Round (-1 / 100) 2 ≠ roundHalfUp (-1 / 100) 2 := by
  refine ⟨?_, ?_, ?_⟩
  · norm_num [Round, intTrunc, goRatio]
  · norm_num [roundHalfUp]
  · norm_num [Round, roundHalfUp, intTrunc, goRatio]

/-- C5 witness: round-half-up at `v = 0.015`, and the MB conversion
entry for 1 MiB of available RAM. -/
theorem C5_witness :
    Round (3 / 200) 2 = roundHalfUp (3 / 200) 2 ∧
    ("available_ram_mb",
      MetricValue.num (Round (((smpRam 1048576).virtualMemory.getD
          { total := 0, available := 0, usedPercent := 0, cached := 0,
            buffers := 0 }).available * bytesToMB) 2))
      ∈ (doActualCollection reqRam (smpRam 1048576) (prevAt 0 0) 5).metrics :=
  ⟨C5_round_semantics.1 (3 / 200) (by norm_num),
   C5_round_semantics.2.1 reqRam (smpRam 1048576) (prevAt 0 0) 5 _
     (by decide) rfl⟩

/-- On scaled arguments at or above `2^63` the gc/amd64 rounding
produces the negative constant `MinInt64/100`. -/
theorem RoundGo_overflow {q : ℚ} (h : (2 ^ 63 : ℚ) ≤ q * 100 + 1 / 2) :
    RoundGo q 2 = (int64Min : ℚ) / 100 ∧ RoundGo q 2 < 0 := by
  have hg : goRatio 2 = 100 := by norm_num [goRatio]
  have hqnn : (0 : ℚ) ≤ q * 100 + 1 / 2 := le_trans (by norm_num) h
  have htr : intTrunc (q * 100 + 1 / 2) = ⌊q * 100 + 1 / 2⌋ :=
    intTrunc_of_nonneg hqnn
  have hfl : (2 ^ 63 : ℤ) ≤ ⌊q * 100 + 1 / 2⌋ := by
    rw [Int.le_floor]
    exact_mod_cast h
  have hcond : ⌊q * 100 + 1 / 2⌋ < int64Min ∨ int64Max < ⌊q * 100 + 1 / 2⌋ := by
    right
    rw [int64Max]
    linarith
  have hgo : intTruncGo (q * 100 + 1 / 2) = int64Min := by
    rw [intTruncGo, htr, if_pos hcond]
  constructor
  · rw [RoundGo, hg, hgo]
  · rw [RoundGo, hg, hgo, int64Min]
    push_cast
    norm_num

/-- On nonnegative inputs whose scaled argument stays below `2^63` the
gc/amd64 rounding agrees with the idealized `Round` and is nonnegative. -/
theorem RoundGo_in_range {q : ℚ} (h0 : 0 ≤ q)
    (h : q * 100 + 1 / 2 < (2 ^ 63 : ℚ)) :
    RoundGo q 2 = Round q 2 ∧ 0 ≤ RoundGo q 2 := by
  have hg : goRatio 2 = 100 := by norm_num [goRatio]
  have hqnn : (0 : ℚ) ≤ q * 100 + 1 / 2 := by nlinarith
  have htr : intTrunc (q * 100 + 1 / 2) = ⌊q * 100 + 1 / 2⌋ :=
    intTrunc_of_nonneg hqnn
  have hlo : (0 : ℤ) ≤ ⌊q * 100 + 1 / 2⌋ := Int.floor_nonneg.mpr hqnn
  have hhi : ⌊q * 100 + 1 / 2⌋ < 2 ^ 63 := by
    rw [Int.floor_lt]
    exact_mod_cast h
  have h63 : (0 : ℤ) < 2 ^ 63 := by positivity
  have hcond : ¬(⌊q * 100 + 1 / 2⌋ < int64Min ∨
      int64Max < ⌊q * 100 + 1 / 2⌋) := by
    push_neg
    rw [int64Min, int64Max]
    exact ⟨by linarith, by linarith⟩
  have hgo : intTruncGo (q * 100 + 1 / 2) = ⌊q * 100 + 1 / 2⌋ := by
    rw [intTruncGo, htr, if_neg hcond]
  have heq : RoundGo q 2 = Round q 2 := by
    rw [RoundGo, Round, hg, hgo, intTrunc_of_nonneg hqnn]
  exact ⟨heq, heq ▸ Round_nonneg h0⟩

/-- C7 (amended): on a counter reset (current cumulative counter
strictly below the stored positive previous counter, positive elapsed
time) the `uint64` subtraction wraps modulo `2^64`, so the rate fed to
`Round` is the enormous nonnegative `(2^64 - (previous - current)) /
elapsed`, never a negative difference.  Whether the *emitted* value is
negative then hinges on `Round`'s `int(...)` conversion of
`rate*100 + 0.5`: when that scaled argument reaches `2^63` (small
elapsed time — for a small reset, roughly elapsed below 200 s) the
conversion is out of `int64` range, implementation-specific per the Go
specification, and on gc/amd64 yields `MinInt64`, making the emitted
value the negative `MinInt64/100` — the claim's conclusion, but only in
that regime and on that implementation; once the scaled argument fits
in `int64` (larger elapsed time) the conversion is exact truncation on
every implementation and the emitted value is huge and nonnegative, so
the claimed unconditional negativity fails. -/
theorem C7_wraparound_rate (req : Req) (s : Sample) (prev : PreviousMetrics)
    (now : ℤ) (cs : List DiskIOCounter)
    (hreq : req "disk_read_bytes_per_sec" = true)
    (hcs : s.diskIOCounters = some cs)
    (hp : 0 < prev.diskReadBytes)
    (ht : prev.timestamp < now)
    (hwrap : totalReadOf cs < prev.diskReadBytes)
    (hbound : prev.diskReadBytes < 2 ^ 64) :
    sub64 (totalReadOf cs) prev.diskReadBytes =
      2 ^ 64 - (prev.diskReadBytes - totalReadOf cs) ∧
    ("disk_read_bytes_per_sec",
      MetricValue.num (Round (wrapRate prev.diskReadBytes (totalReadOf cs)
        prev.timestamp now) 2))
      ∈ (doActualCollection req s prev now).metrics ∧
    ((2 ^ 63 : ℚ) ≤ wrapRate prev.diskReadBytes (totalReadOf cs)
        prev.timestamp now * 100 + 1 / 2 →
      RoundGo (wrapRate prev.diskReadBytes (totalReadOf cs)
        prev.timestamp now) 2 = (int64Min : ℚ) / 100 ∧
      RoundGo (wrapRate prev.diskReadBytes (totalReadOf cs)
        prev.timestamp now) 2 < 0) ∧
    (wrapRate prev.diskReadBytes (totalReadOf cs) prev.timestamp now * 100
        + 1 / 2 < (2 ^ 63 : ℚ) →
      RoundGo (wrapRate prev.diskReadBytes (totalReadOf cs)
        prev.timestamp now) 2 =
        Round (wrapRate prev.diskReadBytes (totalReadOf cs)
          prev.timestamp now) 2 ∧
      0 ≤ RoundGo (wrapRate prev.diskReadBytes (totalReadOf cs)
        prev.timestamp now) 2) := by
  have hsub : sub64 (totalReadOf cs) prev.diskReadBytes =
      2 ^ 64 - (prev.diskReadBytes - totalReadOf cs) := by
    unfold sub64
    omega
  have hmem := diskReadRate_mem hreq hcs hp ht
  rw [hsub] at hmem
  have hrdef : wrapRate prev.diskReadBytes (totalReadOf cs) prev.timestamp now
      = ((2 ^ 64 - (prev.diskReadBytes - totalReadOf cs) : ℕ) : ℚ) /
        (((now - prev.timestamp : ℤ) : ℚ) / 1000000000) := rfl
  have hrnn : 0 ≤ wrapRate prev.diskReadBytes (totalReadOf cs)
      prev.timestamp now := by
    rw [hrdef]
    apply div_nonneg
    · positivity
    · exact le_of_lt (timeDelta_pos_iff.mpr ht)
  refine ⟨hsub, by rw [hrdef]; exact hmem,
    fun h => RoundGo_overflow h, fun h => RoundGo_in_range hrnn h⟩

/-- C7 counterexample against the claim as stated: previous counter
1000, current counter 500 (a reset), 1000 s elapsed — the wrapped rate
is `(2^64 - 500)/1000`, its scaled rounding argument fits in `int64`,
so the `int(...)` conversion is exact truncation on every
implementation (`RoundGo` and the idealized `Round` agree), and the
emitted rate is the strictly positive `18446744073709551.12`, not a
negative value. -/
theorem C7_counterexample :
    ("disk_read_bytes_per_sec",
      MetricValue.num (1844674407370955112 / 100)) ∈
      (doActualCollection reqDiskRate (smpDisk 500) (prevAt 1000 0)
        1000000000000).metrics ∧
    RoundGo (18446744073709551116 / 1000) 2 =
      Round (18446744073709551116 / 1000) 2 ∧
    Round (18446744073709551116 / 1000) 2 = 1844674407370955112 / 100 ∧
    (0 : ℚ) < 1844674407370955112 / 100 := by
  refine ⟨?_, ?_, ?_, by norm_num⟩
  · have h := @diskReadRate_mem reqDiskRate (smpDisk 500) (prevAt 1000 0)
      1000000000000 dio500 (by decide) rfl (by decide) (by decide)
    have hv : Round ((sub64 (totalReadOf dio500)
          ((prevAt 1000 0).diskReadBytes) : ℚ) /
        (((1000000000000 - (prevAt 1000 0).timestamp : ℤ) : ℚ) /
          1000000000)) 2 = 1844674407370955112 / 100 := by
      norm_num [sub64, totalReadOf, dio500, prevAt, Round, intTrunc, goRatio]
    rw [hv] at h
    exact h
  · exact (RoundGo_in_range (by norm_num) (by norm_num)).1
  · norm_num [Round, intTrunc, goRatio]

/-- C7 witness: the amended statement at a concrete reset (previous
counter 1000, current 500, 15 s elapsed); the scaled rounding argument
overflows `int64`, so the gc/amd64 emitted value is negative. -/
theorem C7_witness :
    sub64 (totalReadOf dio500) ((prevAt 1000 0).diskReadBytes) =
      2 ^ 64 - 500 ∧
    ("disk_read_bytes_per_sec",
      MetricValue.num (Round (wrapRate (prevAt 1000 0).diskReadBytes
        (totalReadOf dio500) (prevAt 1000 0).timestamp 15000000000) 2))
      ∈ (doActualCollection reqDiskRate (smpDisk 500) (prevAt 1000 0)
          15000000000).metrics ∧
    RoundGo (wrapRate (prevAt 1000 0).diskReadBytes
      (totalReadOf dio500) (prevAt 1000 0).timestamp 15000000000) 2 < 0 := by
  have h := C7_wraparound_rate reqDiskRate (smpDisk 500) (prevAt 1000 0)
    15000000000 dio500 (by decide) rfl (by decide) (by decide) (by decide)
    (by decide)
  refine ⟨by decide, h.2.1, ?_⟩
  exact (h.2.2.1 (by norm_num [wrapRate, prevAt, dio500, totalReadOf])).2

/-! ## Helper lemmas about the expression evaluator -/

theorem parseFinish_pos {q : ℚ}
    (h0 : ¬(q ≠ 0 ∧ (|q| ≤ float64UnderflowBound ∨ float64OverflowBound ≤ |q|))) :
    (match (some q : Option ℚ) with
     | some q =>
       if q ≠ 0 ∧ (|q| ≤ float64UnderflowBound ∨ float64OverflowBound ≤ |q|) then
         (none : Option ℚ)
       else some q
     | none => none) = some q := if_neg h0

theorem rangeOk_nonneg {q : ℚ} (hq : 0 ≤ q) (h1 : q < float64OverflowBound)
    (h2 : q = 0 ∨ float64UnderflowBound < q) :
    ¬(q ≠ 0 ∧ (|q| ≤ float64UnderflowBound ∨ float64OverflowBound ≤ |q|)) := by
  rw [abs_of_nonneg hq]
  rintro ⟨hq0, h | h⟩
  · rcases h2 with rfl | h2
    · exact hq0 rfl
    · exact absurd h (not_le.mpr h2)
  · exact absurd h (not_le.mpr h1)

theorem parse_two : parseGoFloat ['2'] = some 2 := by
  have habs : parseGoFloatAbs ['2'] =
      some (((digitsToNatAux ['2'] 0 : ℕ) : ℚ) * 10 ^ (0 : ℤ)) := rfl
  rw [show digitsToNatAux ['2'] 0 = 2 from by decide] at habs
  have hval : (((2 : ℕ) : ℚ) * 10 ^ (0 : ℤ)) = 2 := by norm_num
  rw [hval] at habs
  show (match parseGoFloatAbs ['2'] with
    | some q =>
      if q ≠ 0 ∧ (|q| ≤ float64UnderflowBound ∨ float64OverflowBound ≤ |q|) then
        (none : Option ℚ)
      else some q
    | none => none) = some 2
  rw [habs]
  exact parseFinish_pos (rangeOk_nonneg (by norm_num)
    (by norm_num [float64OverflowBound])
    (Or.inr (by norm_num [float64UnderflowBound])))

theorem parse_zero : parseGoFloat ['0'] = some 0 := by
  have habs : parseGoFloatAbs ['0'] =
      some (((digitsToNatAux ['0'] 0 : ℕ) : ℚ) * 10 ^ (0 : ℤ)) := rfl
  rw [show digitsToNatAux ['0'] 0 = 0 from by decide] at habs
  have hval : (((0 : ℕ) : ℚ) * 10 ^ (0 : ℤ)) = 0 := by norm_num
  rw [hval] at habs
  show (match parseGoFloatAbs ['0'] with
    | some q =>
      if q ≠ 0 ∧ (|q| ≤ float64UnderflowBound ∨ float64OverflowBound ≤ |q|) then
        (none : Option ℚ)
      else some q
    | none => none) = some 0
  rw [habs]
  exact parseFinish_pos (rangeOk_nonneg le_rfl
    (by norm_num [float64OverflowBound]) (Or.inl rfl))

theorem calcNoOp (v : ℚ) (e : List Char)
    (h1 : containsChar '*' (substExpr v e) = false)
    (h2 : containsChar '/' (substExpr v e) = false)
    (h3 : containsChar '+' (substExpr v e) = false)
    (h4 : containsChar '-' (substExpr v e) = false) :
    Calculate v e = .finite v := by
  unfold Calculate
  simp [h1, h2, h3, h4]

theorem calcStarFail (v : ℚ) (e : List Char)
    (hc : containsChar '*' (substExpr v e) = true)
    (hfail : ∀ a b, splitOnChar '*' (substExpr v e) = [a, b] →
      parseGoFloat (goTrimSpace b) = none) :
    Calculate v e = .finite v := by
  unfold Calculate
  rw [if_pos hc]
  rcases hs : splitOnChar '*' (substExpr v e) with _ | ⟨a, _ | ⟨b, _ | ⟨d, t⟩⟩⟩
  · rfl
  · rfl
  · dsimp only
    rw [hfail a b hs]
  · rfl

theorem calcDivFail (v : ℚ) (e : List Char)
    (h1 : containsChar '*' (substExpr v e) = false)
    (hc : containsChar '/' (substExpr v e) = true)
    (hfail : ∀ a b, splitOnChar '/' (substExpr v e) = [a, b] →
      parseGoFloat (goTrimSpace b) = none) :
    Calculate v e = .finite v := by
  unfold Calculate
  rw [if_neg (by simp [h1]), if_pos hc]
  rcases hs : splitOnChar '/' (substExpr v e) with _ | ⟨a, _ | ⟨b, _ | ⟨d, t⟩⟩⟩
  · rfl
  · rfl
  · dsimp only
    rw [hfail a b hs]
  · rfl

theorem calcPlusFail (v : ℚ) (e : List Char)
    (h1 : containsChar '*' (substExpr v e) = false)
    (h2 : containsChar '/' (substExpr v e) = false)
    (hc : containsChar '+' (substExpr v e) = true)
    (hfail : ∀ a b, splitOnChar '+' (substExpr v e) = [a, b] →
      parseGoFloat (goTrimSpace b) = none) :
    Calculate v e = .finite v := by
  unfold Calculate
  rw [if_neg (by simp [h1]), if_neg (by simp [h2]), if_pos hc]
  rcases hs : splitOnChar '+' (substExpr v e) with _ | ⟨a, _ | ⟨b, _ | ⟨d, t⟩⟩⟩
  · rfl
  · rfl
  · dsimp only
    rw [hfail a b hs]
  · rfl

theorem calcMinusFail (v : ℚ) (e : List Char)
    (h1 : containsChar '*' (substExpr v e) = false)
    (h2 : containsChar '/' (substExpr v e) = false)
    (h3 : containsChar '+' (substExpr v e) = false)
    (hc : containsChar '-' (substExpr v e) = true)
    (hfail : ∀ a b, splitOnChar '-' (substExpr v e) = [a, b] →
      parseGoFloat (goTrimSpace b) = none) :
    Calculate v e = .finite v := by
  unfold Calculate
  rw [if_neg (by simp [h1]), if_neg (by simp [h2]), if_neg (by simp [h3]),
    if_pos hc]
  rcases hs : splitOnChar '-' (substExpr v e) with _ | ⟨a, _ | ⟨b, _ | ⟨d, t⟩⟩⟩
  · rfl
  · rfl
  · dsimp only
    rw [hfail a b hs]
  · rfl

theorem calcFifty : Calculate 50 "value * 2".data = .finite 100 := by
  have h1 : rhu ((50 : ℚ) * 1000000) = 50000000 := by norm_num [rhu]
  have hff : formatF 50 = "50.000000".data := by
    rw [formatF, if_neg (by norm_num)]
    simp only [formatFNonneg, h1]
    decide
  unfold Calculate
  rw [show substExpr 50 "value * 2".data = "50.000000 * 2".data by
    rw [substExpr, hff]; decide]
  rw [if_pos (by decide : containsChar '*' "50.000000 * 2".data = true)]
  rw [show splitOnChar '*' "50.000000 * 2".data =
    ["50.000000 ".data, " 2".data] by decide]
  dsimp only
  rw [show goTrimSpace " 2".data = ['2'] from by decide]
  simp only [parse_two]
  norm_num

theorem calcDivZero : Calculate 10 "value / 0".data = .posInf := by
  have h1 : rhu ((10 : ℚ) * 1000000) = 10000000 := by norm_num [rhu]
  have hff : formatF 10 = "10.000000".data := by
    rw [formatF, if_neg (by norm_num)]
    simp only [formatFNonneg, h1]
    decide
  unfold Calculate
  rw [show substExpr 10 "value / 0".data = "10.000000 / 0".data by
    rw [substExpr, hff]; decide]
  rw [if_neg (by decide : ¬containsChar '*' "10.000000 / 0".data = true)]
  rw [if_pos (by decide : containsChar '/' "10.000000 / 0".data = true)]
  rw [show splitOnChar '/' "10.000000 / 0".data =
    ["10.000000 ".data, " 0".data] by decide]
  dsimp only
  rw [show goTrimSpace " 0".data = ['0'] from by decide]
  simp only [parse_zero]
  rw [goDiv, if_pos rfl, if_pos (by norm_num)]

/-- C6: `Calculate(50, "value * 2") = 100`; `Calculate(10, "value / 0")`
is IEEE +Inf, not an error; and whenever the substituted expression
contains no recognized operator, or the selected operator's right
operand fails to parse as a float (including a split into a number of
parts other than two, covered because the code then falls through),
`Calculate` returns the value unchanged — it is a total function and
never errors. -/
theorem C6_calculate_semantics :
    (Calculate 50 "value * 2".data = .finite 100) ∧
    (Calculate 10 "value / 0".data = .posInf) ∧
    (∀ (v : ℚ) (e : List Char),
      containsChar '*' (substExpr v e) = false →
      containsChar '/' (substExpr v e) = false →
      containsChar '+' (substExpr v e) = false →
      containsChar '-' (substExpr v e) = false →
      Calculate v e = .finite v) ∧
    (∀ (v : ℚ) (e : List Char),
      containsChar '*' (substExpr v e) = true →
      (∀ a b, splitOnChar '*' (substExpr v e) = [a, b] →
        parseGoFloat (goTrimSpace b) = none) →
      Calculate v e = .finite v) ∧
    (∀ (v : ℚ) (e : List Char),
      containsChar '*' (substExpr v e) = false →
      containsChar '/' (substExpr v e) = true →
      (∀ a b, splitOnChar '/' (substExpr v e) = [a, b] →
        parseGoFloat (goTrimSpace b) = none) →
      Calculate v e = .finite v) ∧
    (∀ (v : ℚ) (e : List Char),
      containsChar '*' (substExpr v e) = false →
      containsChar '/' (substExpr v e) = false →
      containsChar '+' (substExpr v e) = true →
      (∀ a b, splitOnChar '+' (substExpr v e) = [a, b] →
        parseGoFloat (goTrimSpace b) = none) →
      Calculate v e = .finite v) ∧
    (∀ (v : ℚ) (e : List Char),
      containsChar '*' (substExpr v e) = false →
      containsChar '/' (substExpr v e) = false →
      containsChar '+' (substExpr v e) = false →
      containsChar '-' (substExpr v e) = true →
      (∀ a b, splitOnChar '-' (substExpr v e) = [a, b] →
        parseGoFloat (goTrimSpace b) = none) →
      Calculate v e = .finite v) :=
  ⟨calcFifty, calcDivZero, calcNoOp, calcStarFail, calcDivFail,
   calcPlusFail, calcMinusFail⟩

/-- C6 witness: the operator-free expression `hello` leaves `v = 7`
unchanged. -/
theorem C6_witness :
    containsChar '*' (substExpr 7 "hello".data) = false ∧
    Calculate 7 "hello".data = GoFloat.finite 7 :=
  ⟨by decide,
   C6_calculate_semantics.2.2.1 7 "hello".data (by decide) (by decide)
     (by decide) (by decide)⟩

/-! ## Helper lemmas about the string primitives -/

theorem digitChar_isDigit (n : ℕ) : (digitChar n).isDigit = true := by
  unfold digitChar
  split <;> decide

theorem natDigitsAux_chars (fuel : ℕ) :
    ∀ (n : ℕ), ∀ ch ∈ natDigitsAux fuel n, ch.isDigit = true := by
  induction fuel with
  | zero =>
    intro n ch hch
    simp [natDigitsAux] at hch
  | succ f ih =>
    intro n ch hch
    rw [natDigitsAux] at hch
    split at hch
    · simp at hch
    · simp only [List.mem_append, List.mem_singleton] at hch
      rcases hch with h | rfl
      · exact ih _ ch h
      · exact digitChar_isDigit _

theorem natDigits_chars (n : ℕ) : ∀ ch ∈ natDigits n, ch.isDigit = true := by
  intro ch hch
  rw [natDigits] at hch
  split at hch
  · simp only [List.mem_singleton] at hch
    subst hch
    decide
  · exact natDigitsAux_chars _ _ ch hch

theorem formatFNonneg_chars (v : ℚ) :
    ∀ ch ∈ formatFNonneg v, ch.isDigit = true ∨ ch = '.' := by
  intro ch hch
  rw [formatFNonneg] at hch
  simp only [padLeft, List.mem_append, List.mem_cons, List.mem_replicate] at hch
  rcases hch with h | rfl | ⟨-, rfl⟩ | h
  · exact Or.inl (natDigits_chars _ ch h)
  · exact Or.inr rfl
  · exact Or.inl (by decide)
  · exact Or.inl (natDigits_chars _ ch h)

theorem digit_not_special {ch : Char} (h : ch.isDigit = true) :
    ch ≠ '*' ∧ ch ≠ '/' ∧ ch ≠ '+' ∧ ch ≠ '-' ∧ ch ≠ 'v' ∧
      isGoSpace ch = false := by
  refine ⟨?_, ?_, ?_, ?_, ?_, ?_⟩
  · intro heq; rw [heq] at h; exact absurd h (by decide)
  · intro heq; rw [heq] at h; exact absurd h (by decide)
  · intro heq; rw [heq] at h; exact absurd h (by decide)
  · intro heq; rw [heq] at h; exact absurd h (by decide)
  · intro heq; rw [heq] at h; exact absurd h (by decide)
  · cases hsp : isGoSpace ch
    · rfl
    · exfalso
      have hch : ch = ' ' ∨ ch = '\t' ∨ ch = '\n' ∨ ch = '\x0b' ∨
          ch = '\x0c' ∨ ch = '\r' := by
        simpa [isGoSpace, or_assoc] using hsp
      rcases hch with heq | heq | heq | heq | heq | heq <;>
        (rw [heq] at h; exact absurd h (by decide))

theorem digit_dot_not_special {ch : Char}
    (h : ch.isDigit = true ∨ ch = '.') :
    ch ≠ '*' ∧ ch ≠ '/' ∧ ch ≠ '+' ∧ ch ≠ '-' ∧ ch ≠ 'v' ∧
      isGoSpace ch = false := by
  rcases h with h | rfl
  · exact digit_not_special h
  · exact ⟨by decide, by decide, by decide, by decide, by decide, by decide⟩

theorem containsChar_eq_false_of {c : Char} {s : List Char}
    (h : ∀ ch ∈ s, ch ≠ c) : containsChar c s = false := by
  rw [containsChar, List.any_eq_false]
  intro ch hch
  simpa using h ch hch

theorem replaceAllAux_succ_match {pat rep : List Char} {c : Char}
    {s : List Char} (fuel : ℕ)
    (h : pat ≠ [] ∧ pat.isPrefixOf (c :: s)) :
    replaceAllAux pat rep (fuel + 1) (c :: s) =
      rep ++ replaceAllAux pat rep fuel (s.drop (pat.length - 1)) := by
  rw [replaceAllAux, if_pos h]

theorem replaceAllAux_succ_nomatch {pat rep : List Char} {c : Char}
    {s : List Char} (fuel : ℕ)
    (h : ¬(pat ≠ [] ∧ pat.isPrefixOf (c :: s))) :
    replaceAllAux pat rep (fuel + 1) (c :: s) =
      c :: replaceAllAux pat rep fuel s := by
  rw [replaceAllAux, if_neg h]

theorem replaceAllAux_no_occ {p : Char} {pt rep : List Char} :
    ∀ (fuel : ℕ) (s : List Char), (∀ ch ∈ s, ch ≠ p) →
      replaceAllAux (p :: pt) rep fuel s = s := by
  intro fuel
  induction fuel with
  | zero =>
    intro s h
    rfl
  | succ f ih =>
    intro s h
    cases s with
    | nil => rfl
    | cons c rest =>
      have hc : c ≠ p := h c (by simp)
      rw [replaceAllAux_succ_nomatch f (by simp [List.isPrefixOf, Ne.symm hc])]
      rw [ih rest (fun ch hch => h ch (List.mem_cons_of_mem _ hch))]

theorem splitOnChar_ne_nil (sep : Char) (s : List Char) :
    splitOnChar sep s ≠ [] := by
  cases s with
  | nil => simp [splitOnChar]
  | cons c rest =>
    rw [splitOnChar]
    cases h : splitOnChar sep rest with
    | nil => simp
    | cons p ps =>
      dsimp only
      split <;> simp

theorem splitOnChar_cons_self (sep : Char) (t : List Char) :
    splitOnChar sep (sep :: t) = [] :: splitOnChar sep t := by
  cases h : splitOnChar sep t with
  | nil => exact absurd h (splitOnChar_ne_nil sep t)
  | cons p ps =>
    rw [splitOnChar, h]
    simp

theorem splitOnChar_no_sep {sep : Char} :
    ∀ {s : List Char}, (∀ ch ∈ s, ch ≠ sep) → splitOnChar sep s = [s] := by
  intro s
  induction s with
  | nil =>
    intro h
    rfl
  | cons c rest ih =>
    intro h
    rw [splitOnChar, ih (fun ch hch => h ch (List.mem_cons_of_mem _ hch))]
    dsimp only
    rw [if_neg (h c (by simp))]

theorem splitOnChar_append_no_sep {sep : Char} {u t : List Char}
    (hu : ∀ ch ∈ u, ch ≠ sep) {p : List Char} {ps : List (List Char)}
    (ht : splitOnChar sep t = p :: ps) :
    splitOnChar sep (u ++ t) = (u ++ p) :: ps := by
  induction u with
  | nil => simpa using ht
  | cons c u' ih =>
    have h' : ∀ ch ∈ u', ch ≠ sep :=
      fun ch hch => hu ch (List.mem_cons_of_mem _ hch)
    rw [List.cons_append, splitOnChar, ih h']
    dsimp only
    rw [if_neg (hu c (by simp))]
    simp

theorem replaceAll_value_sub (rep c : List Char) (hc : ∀ ch ∈ c, ch ≠ 'v') :
    replaceAll strValue rep (['v','a','l','u','e',' ','-',' '] ++ c) =
      rep ++ (' ' :: '-' :: ' ' :: c) := by
  rw [replaceAll]
  rw [show (['v','a','l','u','e',' ','-',' '] ++ c).length = c.length + 8 by
    simp [List.length_append]]
  show replaceAllAux strValue rep (c.length + 7 + 1)
    ('v' :: 'a' :: 'l' :: 'u' :: 'e' :: ' ' :: '-' :: ' ' :: c) = _
  rw [replaceAllAux_succ_match _
    ⟨by simp [strValue], by simp [strValue, List.isPrefixOf]⟩]
  show rep ++ replaceAllAux strValue rep (c.length + 6 + 1)
    (' ' :: '-' :: ' ' :: c) = _
  rw [replaceAllAux_succ_nomatch _ (by simp [strValue, List.isPrefixOf])]
  show rep ++ (' ' :: replaceAllAux strValue rep (c.length + 5 + 1)
    ('-' :: ' ' :: c)) = _
  rw [replaceAllAux_succ_nomatch _ (by simp [strValue, List.isPrefixOf])]
  show rep ++ (' ' :: '-' :: replaceAllAux strValue rep (c.length + 4 + 1)
    (' ' :: c)) = _
  rw [replaceAllAux_succ_nomatch _ (by simp [strValue, List.isPrefixOf])]
  rw [show strValue = 'v' :: ['a','l','u','e'] from rfl]
  rw [replaceAllAux_no_occ _ c hc]

theorem goTrimSpace_eq_self {a : Char} {m : List Char} {b : Char}
    (ha : isGoSpace a = false) (hb : isGoSpace b = false) :
    goTrimSpace (a :: (m ++ [b])) = a :: (m ++ [b]) := by
  unfold goTrimSpace
  rw [List.dropWhile_cons, if_neg (by simp [ha])]
  rw [show (a :: (m ++ [b])).reverse = b :: (m.reverse ++ [a]) by simp]
  rw [List.dropWhile_cons, if_neg (by simp [hb])]
  simp

/-- C9: for every strictly negative value `v` and expression
`value - c` with `c` a nonnegative numeric literal (digits and dots),
`Calculate` returns `v` unchanged instead of `v - c`: formatting the
negative value introduces a leading minus sign, the split on `-` then
yields three parts instead of two, and the subtraction branch is
silently skipped. -/
theorem C9_negative_value_subtraction (v : ℚ) (c : List Char)
    (hv : v < 0) (hne : c ≠ [])
    (hc : ∀ ch ∈ c, ch.isDigit = true ∨ ch = '.') :
    Calculate v ("value - ".data ++ c) = .finite v := by
  rcases List.eq_nil_or_concat c with rfl | ⟨m, b, rfl⟩
  · exact absurd rfl hne
  rw [List.concat_eq_append] at hc
  rw [List.concat_eq_append]
  have hcv : ∀ ch ∈ m ++ [b], ch ≠ 'v' :=
    fun ch hch => (digit_dot_not_special (hc ch hch)).2.2.2.2.1
  have hbspace : isGoSpace b = false :=
    (digit_dot_not_special (hc b (by simp))).2.2.2.2.2
  have hXchars := formatFNonneg_chars (-v)
  have hsubst : substExpr v ("value - ".data ++ (m ++ [b])) =
      '-' :: (formatFNonneg (-v) ++ (' ' :: '-' :: ' ' :: (m ++ [b]))) := by
    rw [substExpr]
    rw [show "value - ".data = ['v','a','l','u','e',' ','-',' '] from rfl]
    rw [replaceAll_value_sub _ _ hcv]
    rw [show formatF v = '-' :: formatFNonneg (-v) by rw [formatF, if_pos hv]]
    show goTrimSpace
      ('-' :: (formatFNonneg (-v) ++ (' ' :: '-' :: ' ' :: (m ++ [b])))) = _
    rw [show formatFNonneg (-v) ++ (' ' :: '-' :: ' ' :: (m ++ [b])) =
      (formatFNonneg (-v) ++ (' ' :: '-' :: ' ' :: m)) ++ [b] by simp]
    rw [goTrimSpace_eq_self (by decide) hbspace]
  have hEchars : ∀ ch ∈ '-' ::
      (formatFNonneg (-v) ++ (' ' :: '-' :: ' ' :: (m ++ [b]))),
      ch.isDigit = true ∨ ch = '.' ∨ ch = ' ' ∨ ch = '-' := by
    intro ch hch
    simp only [List.mem_cons, List.mem_append, List.mem_singleton,
      List.not_mem_nil, or_false] at hch
    rcases hch with rfl | h | rfl | rfl | rfl | h | hb
    · exact Or.inr (Or.inr (Or.inr rfl))
    · rcases hXchars ch h with h' | h'
      · exact Or.inl h'
      · exact Or.inr (Or.inl h')
    · exact Or.inr (Or.inr (Or.inl rfl))
    · exact Or.inr (Or.inr (Or.inr rfl))
    · exact Or.inr (Or.inr (Or.inl rfl))
    · rcases hc ch (by simp [h]) with h' | h'
      · exact Or.inl h'
      · exact Or.inr (Or.inl h')
    · subst hb
      rcases hc ch (by simp) with h' | h'
      · exact Or.inl h'
      · exact Or.inr (Or.inl h')
  have hop : ∀ ch ∈ '-' ::
      (formatFNonneg (-v) ++ (' ' :: '-' :: ' ' :: (m ++ [b]))),
      ch ≠ '*' ∧ ch ≠ '/' ∧ ch ≠ '+' := by
    intro ch hch
    rcases hEchars ch hch with h | h | h | h
    · exact ⟨(digit_not_special h).1, (digit_not_special h).2.1,
        (digit_not_special h).2.2.1⟩
    · rw [h]; exact ⟨by decide, by decide, by decide⟩
    · rw [h]; exact ⟨by decide, by decide, by decide⟩
    · rw [h]; exact ⟨by decide, by decide, by decide⟩
  have hstar := containsChar_eq_false_of (fun ch hch => (hop ch hch).1)
  have hslash := containsChar_eq_false_of (fun ch hch => (hop ch hch).2.1)
  have hplus := containsChar_eq_false_of (fun ch hch => (hop ch hch).2.2)
  have hminus : containsChar '-'
      ('-' :: (formatFNonneg (-v) ++ (' ' :: '-' :: ' ' :: (m ++ [b])))) =
      true := by
    simp [containsChar]
  have hnos1 : ∀ ch ∈ formatFNonneg (-v) ++ [' '], ch ≠ '-' := by
    intro ch hch
    simp only [List.mem_append, List.mem_singleton] at hch
    rcases hch with h | rfl
    · rcases hXchars ch h with h' | h'
      · exact (digit_not_special h').2.2.2.1
      · rw [h']; decide
    · decide
  have hnos2 : ∀ ch ∈ ' ' :: (m ++ [b]), ch ≠ '-' := by
    intro ch hch
    simp only [List.mem_cons] at hch
    rcases hch with rfl | h
    · decide
    · exact (digit_dot_not_special (hc ch h)).2.2.2.1
  have h2 : splitOnChar '-' ('-' :: (' ' :: (m ++ [b]))) =
      [] :: [' ' :: (m ++ [b])] := by
    rw [splitOnChar_cons_self, splitOnChar_no_sep hnos2]
  have h4 : splitOnChar '-'
      ('-' :: (formatFNonneg (-v) ++ (' ' :: '-' :: ' ' :: (m ++ [b])))) =
      [] :: ((formatFNonneg (-v) ++ [' ']) ++ []) :: [' ' :: (m ++ [b])] := by
    rw [splitOnChar_cons_self]
    rw [show formatFNonneg (-v) ++ (' ' :: '-' :: ' ' :: (m ++ [b])) =
      (formatFNonneg (-v) ++ [' ']) ++ ('-' :: (' ' :: (m ++ [b]))) by simp]
    rw [splitOnChar_append_no_sep hnos1 h2]
  unfold Calculate
  rw [hsubst]
  rw [if_neg (by simp [hstar]), if_neg (by simp [hslash]),
    if_neg (by simp [hplus]), if_pos hminus]
  rw [h4]

/-- C9 witness: `Calculate(-5, "value - 2")` returns `-5`, not `-7`. -/
theorem C9_witness :
    Calculate (-5) ("value - ".data ++ ['2']) = GoFloat.finite (-5) :=
  C9_negative_value_subtraction (-5) ['2'] (by norm_num) (by decide)
    (by decide)

/-! ## Helper lemmas about the Prometheus parser -/

/-- C10: `ApplyFilters` is total (its Go signature has no error result)
and an invalid filter pattern — modelled as a matcher returning `none`,
since the code discards the error of `regexp.MatchString` and keeps the
accompanying `false` — matches no key: an entry survives iff it is in
the input, the include list is empty or some include pattern matches,
and no exclude pattern matches; removing an invalid exclude pattern
changes nothing, and removing an invalid include pattern changes
nothing as long as the include list stays nonempty (an invalid include
pattern contributes no inclusions). -/
theorem C10_apply_filters_total :
    (∀ (α : Type) (m : RegexMatcher) (data : List (String × α))
      (f : FilterConfig) (k : String) (v : α),
      (k, v) ∈ ApplyFilters m data f ↔
        (k, v) ∈ data ∧
        (f.Include = [] ∨ ∃ p ∈ f.Include, goMatched m p k = true) ∧
        (∀ p ∈ f.Exclude, goMatched m p k = false)) ∧
    (∀ (m : RegexMatcher) (p : String), (∀ k, m p k = none) →
      ∀ k, goMatched m p k = false) ∧
    (∀ (α : Type) (m : RegexMatcher) (data : List (String × α))
      (inc e1 e2 : List String) (p : String), (∀ k, m p k = none) →
      ApplyFilters m data { Include := inc, Exclude := e1 ++ p :: e2 } =
        ApplyFilters m data { Include := inc, Exclude := e1 ++ e2 }) ∧
    (∀ (α : Type) (m : RegexMatcher) (data : List (String × α))
      (i1 i2 exc : List String) (p : String),
      (∀ k, m p k = none) → i1 ++ i2 ≠ [] →
      ApplyFilters m data { Include := i1 ++ p :: i2, Exclude := exc } =
        ApplyFilters m data { Include := i1 ++ i2, Exclude := exc }) := by
  have hinv : ∀ (m : RegexMatcher) (p : String), (∀ k, m p k = none) →
      ∀ k, goMatched m p k = false := by
    intro m p h k
    rw [goMatched, h k]
    rfl
  refine ⟨?_, hinv, ?_, ?_⟩
  · intro α m data f k v
    simp only [ApplyFilters, List.mem_filter, Bool.and_eq_true,
      Bool.not_eq_true', includeKey, excludeKey, Bool.or_eq_true,
      decide_eq_true_eq, List.any_eq_true, List.any_eq_false,
      Bool.not_eq_true, and_assoc]
  · intro α m data inc e1 e2 p hp
    unfold ApplyFilters
    apply List.filter_congr
    intro x hx
    simp [includeKey, excludeKey, List.any_append, List.any_cons,
      hinv m p hp]
  · intro α m data i1 i2 exc p hp hne
    unfold ApplyFilters
    apply List.filter_congr
    intro x hx
    have h3 : (decide (i1 = []) && decide (i2 = [])) = false := by
      rcases eq_or_ne i1 [] with rfl | h
      · simp only [List.nil_append] at hne
        simp [hne]
      · simp [h]
    simp [includeKey, excludeKey, List.any_append, List.any_cons,
      hinv m p hp, h3]

/-- C10 witness: an unparenthesized `(` pattern (invalid regex) matches
nothing, and removing it from an exclude list changes nothing. -/
theorem C10_witness :
    goMatched (fun _ _ => (none : Option Bool)) "(" "abc" = false ∧
    ApplyFilters (fun _ _ => (none : Option Bool)) [("abc", (1 : ℕ))]
        { Include := [], Exclude := [] ++ "(" :: [] } =
      ApplyFilters (fun _ _ => (none : Option Bool)) [("abc", (1 : ℕ))]
        { Include := [], Exclude := [] ++ [] } :=
  ⟨C10_apply_filters_total.2.1 (fun _ _ => none) "(" (fun _ => rfl) "abc",
   C10_apply_filters_total.2.2.1 ℕ (fun _ _ => none) [("abc", 1)] [] [] []
     "(" (fun _ => rfl)⟩

end Probestyx
